import Mathlib

/-!
Verification development for the cloud-release-chat-bot notification relay.

The Python sources are shallowly embedded as executable Lean definitions:

* Firestore collections become association lists `List (String × α)` keyed by
  document id; `doc.set` is `setA` (overwrite-or-create), `doc.get` is
  `List.lookup`.
* Python dicts keyed by stable identifiers likewise become association lists.
* Python regular-expression scanning over release-note HTML is embedded as
  character-list scanners that implement exactly the patterns the source uses
  (`<h3>Libraries</h3>(.|\n)*?<h3>`, `\<h3\>.*?\<\/h3\>`, `<h3>(.*)?</h3>`),
  including Python's rule that `.` does not match a newline while `(.|\n)`
  matches every character, non-greedy vs greedy repetition, and `re.sub`'s
  left-to-right replacement of all non-overlapping matches.
* External collaborators (feed fetching, BeautifulSoup's `get_text`, `sha256`)
  are parameters of the embedded functions: the source's control flow only
  compares their outputs for equality.
-/

namespace CloudReleaseBot

/-- Association-list model of a Firestore collection: `doc_ref.set(v)` on key
`k` overwrites the document if present, creating it otherwise. -/
def setA {α : Type} (k : String) (v : α) : List (String × α) → List (String × α)
  | [] => [(k, v)]
  | (k', v') :: rest => if k' = k then (k, v) :: rest else (k', v') :: setA k v rest

/-- Python `dict.update` / Firestore `set(..., merge=True)` on top-level fields:
every key of `upd` is written into `base`, other keys of `base` are kept. -/
def dictUpdate {α : Type} (base upd : List (String × α)) : List (String × α) :=
  upd.foldl (fun acc kv => setA kv.1 kv.2 acc) base

/-- Codepoint-wise lexicographic order on character lists; this is the order
Python's `sorted` uses on strings. -/
def lexLe : List Char → List Char → Bool
  | [], _ => true
  | _ :: _, [] => false
  | a :: as, b :: bs =>
    if a.toNat < b.toNat then true
    else if a.toNat = b.toNat then lexLe as bs
    else false

/-- The order on `String` induced by `lexLe` on the underlying characters. -/
def strLe (a b : String) : Prop := lexLe a.data b.data = true

instance : DecidableRel strLe := fun a b => by unfold strLe; infer_instance

/-- Python `sorted(list(set(xs)))`: the canonical duplicate-free sorted listing
of the members of `xs`. -/
def sortedDedup (l : List String) : List String :=
  (l.dedup).insertionSort strLe

/-! ## check-blogs / check-github / check-youtube: novelty detection -/

/-- Embeds `get_new_blog_posts` (src/check-blogs/main.py, lines 172-180): the
entries of the fetched map whose key is absent from the stored map.  The
`blog_map is None` default branch (which would call `get_blog_posts()` without
its required argument) is never taken: `send_new_blogs` always passes the
fetched map, so the fetched map is a required parameter here. -/
def get_new_blog_posts {α : Type} (blog_map stored_blog_map : List (String × α)) :
    List (String × α) :=
  blog_map.filter (fun kv => (stored_blog_map.lookup kv.1).isNone)

/-- Embeds `get_new_releases` (src/check-github/main.py, lines 149-158):
`None` input yields an empty map, otherwise the entries of the fetched map
whose key is absent from the stored map. -/
def get_new_releases {α : Type} (release_map : Option (List (String × α)))
    (stored_release_map : List (String × α)) : List (String × α) :=
  match release_map with
  | none => []
  | some m => m.filter (fun kv => (stored_release_map.lookup kv.1).isNone)

/-- Embeds `get_new_videos` (src/check-youtube/main.py, lines 90-99): same
shape as `get_new_releases`. -/
def get_new_videos {α : Type} (video_map : Option (List (String × α)))
    (stored_video_map : List (String × α)) : List (String × α) :=
  match video_map with
  | none => []
  | some m => m.filter (fun kv => (stored_video_map.lookup kv.1).isNone)

/-! ## Seen-item store updates performed at the end of a checker run -/

/-- Embeds the store update at the end of `send_new_blogs`
(src/check-blogs/main.py, lines 222-224): when the run found new blogs, the
seen-blogs document is overwritten with `doc_ref.set(blog_map)` — the day's
fetched map, not a merge with the previously stored map. -/
def send_new_blogs_store_update {α : Type} (blog_map stored : List (String × α)) :
    List (String × α) :=
  if (get_new_blog_posts blog_map stored).isEmpty then stored else blog_map

/-- Embeds `store_new_releases` (src/check-github/main.py, lines 161-169): a
no-op on an empty new-release map, otherwise `doc_ref.set(update_data,
merge=True)` — the new entries are merged into the stored document, keeping
every other stored key. -/
def store_new_releases {α : Type} (new_releases stored : List (String × α)) :
    List (String × α) :=
  if new_releases.isEmpty then stored else dictUpdate stored new_releases

/-- Embeds the store update at the end of `send_new_video_notifications`
(src/check-youtube/main.py, lines 144-151): when the run found new videos, the
stored map is re-read, `stored_videos.update(all_videos_map)` merges in the
day's fetch, and the merged dict is written back. -/
def send_new_video_notifications_store_update {α : Type}
    (all_videos stored : List (String × α)) : List (String × α) :=
  if (get_new_videos (some all_videos) stored).isEmpty then stored
  else dictUpdate stored all_videos

/-! ## Inbound HTTP handler responses

Each handler is modelled as a function of the outcome of its internal
processing (`Except.error` = an exception was raised inside the body). -/

/-- Embeds `handle_pubsub_message` (src/chat-client/main.py, lines 849-868):
the whole body sits in a `try`, and the `except` branch returns the same
`("Done", 200)` success response after logging. -/
def handle_pubsub_message (r : Except String Unit) : String × Nat :=
  match r with
  | .ok _ => ("Done", 200)
  | .error _ => ("Done", 200)

/-- Embeds `http_request` (src/check-github/main.py, lines 230-238): success
returns `("Processing complete.", 200)`; the `except` branch returns
`("An internal error occurred.", 500)`. -/
def check_github_http_request (r : Except String Unit) : String × Nat :=
  match r with
  | .ok _ => ("Processing complete.", 200)
  | .error _ => ("An internal error occurred.", 500)

/-- Embeds `http_request` (src/check-blogs/main.py, lines 227-239): there is no
`try` around `send_new_blogs()`, so an exception propagates to the hosting
framework instead of producing the success response. -/
def check_blogs_http_request (r : Except String Unit) : Except String (String × Nat) :=
  r.map (fun _ => ("Done", 200))

/-- Embeds `http_request` (src/check-youtube/main.py, lines 155-158): no `try`
around `send_new_video_notifications()`. -/
def check_youtube_http_request (r : Except String Unit) : Except String (String × Nat) :=
  r.map (fun _ => ("Done", 200))

/-- Embeds `http_request` (src/check-release-notes/main.py, lines 244-275): no
`try` around the run body. -/
def check_release_notes_http_request (r : Except String Unit) :
    Except String (String × Nat) :=
  r.map (fun _ => ("Done", 200))

/-! ## chat-client: selection resolver -/

/-- Embeds `product.replace("/", "")` as used for Firestore document ids in
src/chat-client and src/check-release-notes: the pattern is the single
character `/`, so the replacement removes every `/`. -/
def sanitizeProduct (p : String) : String :=
  String.mk (p.data.filter (fun c => c ≠ '/'))

/-- Embeds `space_id.replace("/", "_")` used for the per-space record key. -/
def sanitizeSpace (s : String) : String :=
  String.mk (s.data.map (fun c => if c = '/' then '_' else c))

/-- Embeds `get_members_only` (src/chat-client/main.py, lines 182-184): the
tag's member list with the tag string itself excluded by identity comparison;
membership below treats the result as the Python set it is. -/
def get_members_only (category_tag : String)
    (category_map : List (String × List String)) : List String :=
  ((category_map.lookup category_tag).getD []).filter (fun item => item ≠ category_tag)

/-- Embeds `active_product_tags` in `openInitialDialog` (src/chat-client/
main.py, line 231): the tags of the category map present in the subscribed
set. -/
def active_tags (category_map : List (String × List String))
    (subscribed : List String) : List String :=
  (category_map.map Prod.fst).filter (fun tag => subscribed.contains tag)

/-- Embeds `products_covered_by_active_tags` (src/chat-client/main.py, line
234): the union of the members-only sets of the active tags. -/
def covered_by_active_tags (category_map : List (String × List String))
    (subscribed : List String) : List String :=
  (active_tags category_map subscribed).foldl
    (fun acc tag => acc ++ get_members_only tag category_map) []

/-- Embeds the per-item selection logic of `openInitialDialog`
(src/chat-client/main.py, lines 221-247, repeated verbatim for blogs, YouTube
channels and repos): override tag present ⇒ only the override selected;
otherwise with a prior record an item is selected iff it is an active tag or
is subscribed and not covered by an active tag; with no record nothing is
selected. The concrete `client_utils` item lists and category maps are not
part of the sources under verification and are parameters. -/
def openInitialDialog_selection (override_tag : String)
    (category_map : List (String × List String)) (all_possible : List String)
    (doc_exists : Bool) (subscribed : List String) : List (String × Bool) :=
  if subscribed.contains override_tag then
    all_possible.map (fun item => (item, decide (item = override_tag)))
  else if doc_exists then
    all_possible.map (fun item =>
      (item, (active_tags category_map subscribed).contains item ||
        (subscribed.contains item &&
          !((covered_by_active_tags category_map subscribed).contains item))))
  else
    all_possible.map (fun item => (item, false))

/-- Embeds `handle_templatized_notes_inputs` (src/chat-client/main.py, lines
418-426; `handle_templatized_blogs_inputs`, lines 429-437, is the same shape):
if the domain override tag was chosen, return the whole sorted universe and
`used_override = true`; otherwise union each chosen category tag's member list
into the chosen set and return it sorted.  The `client_utils` universe list
and the category map are parameters. -/
def handle_templatized_notes_inputs (override : String) (all_products : List String)
    (category_map : List (String × List String)) (products : List String) :
    List String × Bool :=
  if products.contains override then (sortedDedup all_products, true)
  else
    (sortedDedup (category_map.foldl
      (fun acc p => if products.contains p.1 then acc ++ p.2 else acc) products),
     false)

/-! ## chat-client: subscription ledger -/

/-- Embeds `record_space_subscription` (src/chat-client/main.py, lines
626-639): append the space to the product document's `spaces_subscribed` array
only if absent, creating the document with a singleton array if missing.  The
document value is modelled as its `spaces_subscribed` array. -/
def record_space_subscription (space_id product : String)
    (space_product_subscriptions : List (String × List String)) :
    List (String × List String) :=
  let key := sanitizeProduct product
  match space_product_subscriptions.lookup key with
  | some spaces_subscribed =>
    if spaces_subscribed.contains space_id then space_product_subscriptions
    else setA key (spaces_subscribed ++ [space_id]) space_product_subscriptions
  | none => setA key [space_id] space_product_subscriptions

/-- Embeds `record_space_repo_subscription` (src/chat-client/main.py, lines
565-583): same shape as `record_space_subscription` but the repo name is used
verbatim as the document id. -/
def record_space_repo_subscription (space_id repo_name : String)
    (github_repo_subscriptions : List (String × List String)) :
    List (String × List String) :=
  match github_repo_subscriptions.lookup repo_name with
  | some spaces_subscribed =>
    if spaces_subscribed.contains space_id then github_repo_subscriptions
    else setA repo_name (spaces_subscribed ++ [space_id]) github_repo_subscriptions
  | none => setA repo_name [space_id] github_repo_subscriptions

/-- Embeds `unsubscribe_space_product` (src/chat-client/main.py, lines
664-667): a Firestore `update` with `ArrayRemove([space_id])`, which removes
every occurrence of the space from the array and raises NotFound (modelled as
`Except.error`) when the document does not exist. -/
def unsubscribe_space_product (space_id : String)
    (coll : List (String × List String)) (product : String) :
    Except String (List (String × List String)) :=
  let key := sanitizeProduct product
  match coll.lookup key with
  | some spaces => .ok (setA key (spaces.filter (fun s => s ≠ space_id)) coll)
  | none => .error key

/-- Embeds `unsubscribe_space_blogs` (src/chat-client/main.py, lines 658-661):
the category is the document id verbatim. -/
def unsubscribe_space_blogs (space_id : String)
    (coll : List (String × List String)) (category : String) :
    Except String (List (String × List String)) :=
  match coll.lookup category with
  | some spaces => .ok (setA category (spaces.filter (fun s => s ≠ space_id)) coll)
  | none => .error category

/-- Embeds `unsubscribe_space_youtube` (src/chat-client/main.py, lines
649-655). -/
def unsubscribe_space_youtube (space_id : String)
    (coll : List (String × List String)) (channel_name : String) :
    Except String (List (String × List String)) :=
  match coll.lookup channel_name with
  | some spaces => .ok (setA channel_name (spaces.filter (fun s => s ≠ space_id)) coll)
  | none => .error channel_name

/-- Embeds `unsubscribe_space_repo` (src/chat-client/main.py, lines 642-646). -/
def unsubscribe_space_repo (space_id : String)
    (coll : List (String × List String)) (repo_name : String) :
    Except String (List (String × List String)) :=
  match coll.lookup repo_name with
  | some spaces => .ok (setA repo_name (spaces.filter (fun s => s ≠ space_id)) coll)
  | none => .error repo_name

/-- Runs one removal per identifier the way `executor.submit` + `futures.wait`
does: each task acts on its own document; a task that raises leaves the store
unchanged for its document and its exception stays inside the never-inspected
future.  The per-identifier documents are distinct in the intended data, so
the concurrent fan-out is modelled as a left fold. -/
def runRemovals
    (op : String → List (String × List String) → String →
      Except String (List (String × List String)))
    (space_id : String) (coll : List (String × List String)) (ids : List String) :
    List (String × List String) :=
  ids.foldl (fun acc id =>
    match op space_id acc id with
    | .ok c => c
    | .error _ => acc) coll

/-- Per-space subscription record (the `product_space_subscriptions`
document). -/
structure SubRecord where
  products_subscribed : List String
  categories_subscribed : List String
  youtube_channels_subscribed : List String
  repos_subscribed : List String
deriving Repr, DecidableEq

/-- The Firestore collections touched by the chat-client ledger. -/
structure ClientState where
  product_space_subscriptions : List (String × SubRecord)
  space_product_subscriptions : List (String × List String)
  space_blog_subscriptions : List (String × List String)
  youtube_channel_subscriptions : List (String × List String)
  github_repo_subscriptions : List (String × List String)
deriving Repr, DecidableEq

/-- Per-domain set difference `list(set(previous) - set(new))` computed by
`record_product_subscription`; Python's arbitrary set ordering is modelled as
the duplicate-free filtered list. -/
def unsubscribed_ids (previous new : List String) : List String :=
  (previous.filter (fun p => ¬ new.contains p)).dedup

/-- Embeds `record_product_subscription` (src/chat-client/main.py, lines
670-745).  Returns the final state, the list of issued inverted-index removals
as (collection, identifier) pairs, and the list of error-log lines produced by
the function's own `except` handler.  Exceptions raised inside the submitted
removal tasks are captured by their futures and never retrieved — they reach
neither the log nor the surrounding `try` — so the sequential tail (the final
record `set`) always runs. -/
def record_product_subscription (space_id : String)
    (products categories youtube_channels repos : List String) (st : ClientState) :
    ClientState × List (String × String) × List String :=
  let key := sanitizeSpace space_id
  let newRecord : SubRecord := ⟨products, categories, youtube_channels, repos⟩
  match st.product_space_subscriptions.lookup key with
  | some previous_doc =>
    let unsubscribed_products :=
      unsubscribed_ids previous_doc.products_subscribed products
    let unsubscribed_categories :=
      unsubscribed_ids previous_doc.categories_subscribed categories
    let unsubscribed_youtube :=
      unsubscribed_ids previous_doc.youtube_channels_subscribed youtube_channels
    let unsubscribed_repos :=
      unsubscribed_ids previous_doc.repos_subscribed repos
    let issued :=
      unsubscribed_products.map (fun p => ("space_product_subscriptions", p))
      ++ unsubscribed_categories.map (fun c => ("space_blog_subscriptions", c))
      ++ unsubscribed_youtube.map (fun y => ("youtube_channel_subscriptions", y))
      ++ unsubscribed_repos.map (fun r => ("github_repo_subscriptions", r))
    ({ product_space_subscriptions := setA key newRecord st.product_space_subscriptions,
       space_product_subscriptions :=
         runRemovals unsubscribe_space_product space_id
           st.space_product_subscriptions unsubscribed_products,
       space_blog_subscriptions :=
         runRemovals unsubscribe_space_blogs space_id
           st.space_blog_subscriptions unsubscribed_categories,
       youtube_channel_subscriptions :=
         runRemovals unsubscribe_space_youtube space_id
           st.youtube_channel_subscriptions unsubscribed_youtube,
       github_repo_subscriptions :=
         runRemovals unsubscribe_space_repo space_id
           st.github_repo_subscriptions unsubscribed_repos },
     issued, [])
  | none =>
    let recs := setA key newRecord st.product_space_subscriptions
    ({ st with product_space_subscriptions := recs }, [], [])

/-! ## check-release-notes: regex scanning over the note body

The release-note body is a character list.  The three patterns the source
uses are implemented directly:

* `re.search/re.sub` with `<h3>Libraries</h3>(.|\n)*?<h3>` — `(.|\n)` matches
  every character, `*?` is non-greedy, `re.sub` replaces every non-overlapping
  match scanning left to right;
* `re.split` with `\<h3\>.*?\<\/h3\>` — here `.` does not match `'\n'`;
* `re.findall` with `<h3>(.*)?</h3>` — greedy `.*`, again newline-free.
-/

/-- The literal `<h3>`. -/
def h3Open : List Char := "<h3>".data

/-- The literal `</h3>`. -/
def h3Close : List Char := "</h3>".data

/-- The literal `<h3>Libraries</h3>` (18 characters). -/
def librariesHeader : List Char := "<h3>Libraries</h3>".data

/-- The replacement `<h3>Libraries Updated</h3>\n<h3>` used when another
section follows the Libraries section. -/
def librariesUpdatedMid : List Char := "<h3>Libraries Updated</h3>\n<h3>".data

/-- The replacement `<h3>Libraries Updated</h3>` used when the Libraries
section is the last section. -/
def librariesUpdatedEnd : List Char := "<h3>Libraries Updated</h3>".data

/-- Index of the first occurrence of `pat` as a contiguous sublist of `s`. -/
def findSub (pat : List Char) : List Char → Option Nat
  | [] => if pat.isPrefixOf ([] : List Char) then some 0 else none
  | c :: cs =>
    if pat.isPrefixOf (c :: cs) then some 0
    else (findSub pat cs).map (· + 1)

/-- Attempts the pattern `<h3>Libraries</h3>(.|\n)*?<h3>` at the head of `s`:
on success returns the remainder of `s` after the match (the non-greedy body
runs to the first subsequent `<h3>`, which is consumed by the match). -/
def matchLibAt (s : List Char) : Option (List Char) :=
  if librariesHeader.isPrefixOf s then
    (findSub h3Open (s.drop 18)).map (fun k => (s.drop 18).drop (k + 4))
  else none

/-- `re.search` of `<h3>Libraries</h3>(.|\n)*?<h3>`: does the pattern match at
some position of `s`? -/
def hasLibMatch : List Char → Bool
  | [] => false
  | c :: cs => (matchLibAt (c :: cs)).isSome || hasLibMatch cs

/-- `re.sub(r"<h3>Libraries</h3>(.|\n)*?<h3>", "<h3>Libraries Updated</h3>\n<h3>", s)`:
replace every non-overlapping match, scanning left to right and continuing
after each match's end. -/
def subLib1 (s : List Char) : List Char :=
  match s with
  | [] => []
  | c :: cs =>
    match h : matchLibAt (c :: cs) with
    | some rest => librariesUpdatedMid ++ subLib1 rest
    | none => c :: subLib1 cs
termination_by s.length
decreasing_by
  · unfold matchLibAt at h
    split at h
    · simp only [Option.map_eq_some'] at h
      rcases h with ⟨k, hk, hrest⟩
      simp only [← hrest, List.length_drop, List.length_cons]
      omega
    · simp at h
  · simp

/-- `re.sub(r"<h3>Libraries</h3>(.|\n)*", "<h3>Libraries Updated</h3>", s)`:
the single match runs from the first `<h3>Libraries</h3>` to the end of the
string. -/
def subLib2 : List Char → List Char
  | [] => []
  | c :: cs =>
    if librariesHeader.isPrefixOf (c :: cs) then librariesUpdatedEnd
    else c :: subLib2 cs

/-- Embeds `remove_libraries` (src/check-release-notes/main.py, lines 42-60). -/
def remove_libraries (html : List Char) : List Char :=
  if hasLibMatch html then subLib1 html
  else if (findSub librariesHeader html).isSome then subLib2 html
  else html

/-- Embeds the body construction inside `get_todays_release_note`
(src/check-release-notes/main.py, lines 63-123): the html kept in the fetched
note — the body that is subsequently hashed, stored and notified — is
`remove_libraries` applied to the feed entry's content (fetching, XML parsing
and the same-day date filter are external and outside the model). -/
def get_todays_release_note_html (feed_content : List Char) : List Char :=
  remove_libraries feed_content

/-- Non-greedy scan for `.*?\<\/h3\>` (newline-free body): the least `k` such
that `s[0..k)` contains no `'\n'` and `</h3>` starts at position `k`. -/
def ngCloseIdx : List Char → Option Nat
  | [] => none
  | c :: cs =>
    if h3Close.isPrefixOf (c :: cs) then some 0
    else if c = '\n' then none
    else (ngCloseIdx cs).map (· + 1)

/-- Greedy scan for `(.*)?\<\/h3\>` (newline-free body): the greatest such
`k`. -/
def gCloseIdx : List Char → Option Nat
  | [] => none
  | c :: cs =>
    match (if c = '\n' then none else (gCloseIdx cs).map (· + 1) : Option Nat) with
    | some k => some k
    | none => if h3Close.isPrefixOf (c :: cs) then some 0 else none

/-- Attempts `\<h3\>.*?\<\/h3\>` at the head of `s`: on success returns the
remainder after the match. -/
def matchSplitAt (s : List Char) : Option (List Char) :=
  if h3Open.isPrefixOf s then
    (ngCloseIdx (s.drop 4)).map (fun k => (s.drop 4).drop (k + 5))
  else none

/-- Attempts `<h3>(.*)?</h3>` at the head of `s`: on success returns the
capture (the greedy header text) and the remainder after the match. -/
def matchFindAt (s : List Char) : Option (List Char × List Char) :=
  if h3Open.isPrefixOf s then
    (gCloseIdx (s.drop 4)).map (fun k => ((s.drop 4).take k, (s.drop 4).drop (k + 5)))
  else none

/-- `re.split(r"\<h3\>.*?\<\/h3\>", s)`: the pieces of `s` between
non-overlapping matches, including the piece before the first match and the
piece after the last. `cur` accumulates the current piece reversed. -/
def pySplitAux (s : List Char) (cur : List Char) : List (List Char) :=
  match s with
  | [] => [cur.reverse]
  | c :: cs =>
    match h : matchSplitAt (c :: cs) with
    | some rest => cur.reverse :: pySplitAux rest []
    | none => pySplitAux cs (c :: cur)
termination_by s.length
decreasing_by
  · unfold matchSplitAt at h
    split at h
    · simp only [Option.map_eq_some'] at h
      rcases h with ⟨k, hk, hrest⟩
      simp only [← hrest, List.length_drop, List.length_cons]
      omega
    · simp at h
  · simp

/-- The subsection split used by `get_new_release_note_subsections`. -/
def pySplitH3 (s : List Char) : List (List Char) :=
  pySplitAux s []

/-- `re.findall(r"<h3>(.*)?</h3>", s)`: the greedy header captures of all
non-overlapping matches, scanning left to right. -/
def pyFindallAux (s : List Char) : List (List Char) :=
  match s with
  | [] => []
  | c :: cs =>
    match h : matchFindAt (c :: cs) with
    | some capRest => capRest.1 :: pyFindallAux capRest.2
    | none => pyFindallAux cs
termination_by s.length
decreasing_by
  · unfold matchFindAt at h
    split at h
    · simp only [Option.map_eq_some'] at h
      rcases h with ⟨k, hk, hrest⟩
      simp only [← hrest, List.length_drop, List.length_cons]
      omega
    · simp at h
  · simp

/-- The header extraction used by `get_new_release_note_subsections`. -/
def pyFindallH3 (s : List Char) : List (List Char) :=
  pyFindallAux s

/-! ## check-release-notes: novelty pipeline -/

/-- A fetched or stored release note (the dict built by
`get_todays_release_note`). -/
structure ReleaseNote where
  product : String
  date : String
  link : String
  html : List Char
  rss_url : String
deriving Repr, DecidableEq

/-- Embeds `get_new_release_note_subsections` (src/check-release-notes/
main.py, lines 126-159).  `getText` is BeautifulSoup's plain-text extraction,
an external collaborator passed as a parameter.  A subsection of the fetched
note is kept iff its plain text equals no stored subsection's plain text; the
kept subsections are re-emitted as `<h3>{header}</h3>{subsection}`.  (When a
kept subsection's index exceeds the header list Python would raise IndexError;
the model pads with `[]` — no claim exercises that case.) -/
def get_new_release_note_subsections (getText : List Char → List Char)
    (latest stored : ReleaseNote) : ReleaseNote :=
  let latest_subs := (pySplitH3 latest.html).drop 1
  let latest_texts := latest_subs.map getText
  let headers := pyFindallH3 latest.html
  let stored_subs := (pySplitH3 stored.html).drop 1
  let stored_texts := stored_subs.map getText
  let newHtml := latest_texts.enum.foldl
    (fun acc p =>
      if p.2 ∈ stored_texts then acc
      else acc ++ h3Open ++ headers.getD p.1 [] ++ h3Close ++ latest_subs.getD p.1 [])
    []
  { latest with html := newHtml }

/-- Embeds `isNewRelease` (src/check-release-notes/main.py, lines 191-211):
compare the `sha256` digests of the plain texts of the two bodies.  `digest`
is the external hash, `getText` the external plain-text extraction. -/
def isNewRelease (digest : List Char → List Nat) (getText : List Char → List Char)
    (latest stored : ReleaseNote) : Bool :=
  decide (digest (getText latest.html) ≠ digest (getText stored.html))

/-- Embeds `save_release_note_to_firestore` (src/check-release-notes/main.py,
lines 214-218): overwrite the product's document (key sanitized). -/
def save_release_note_to_firestore (product : String) (new_release : ReleaseNote)
    (store : List (String × ReleaseNote)) : List (String × ReleaseNote) :=
  setA (sanitizeProduct product) new_release store

/-- The loop body of `get_new_release_notes` for one fetched (product, note)
pair: with a stored note whose html is non-empty, a digest change stores the
fetched note verbatim (the store write happens before the subsection filter
mutates the dict's html) and notifies only when the subsection diff is
non-empty; otherwise the fetched note is stored and notified as a whole. -/
def process_release_note (digest : List Char → List Nat)
    (getText : List Char → List Char)
    (acc : List (String × ReleaseNote) × List (String × ReleaseNote))
    (pr : String × ReleaseNote) :
    List (String × ReleaseNote) × List (String × ReleaseNote) :=
  let product := pr.1
  let latest := pr.2
  match acc.1.lookup (sanitizeProduct product) with
  | some stored_release_note =>
    if stored_release_note.html.isEmpty then
      (save_release_note_to_firestore product latest acc.1,
       acc.2 ++ [(product, latest)])
    else if isNewRelease digest getText latest stored_release_note then
      let st2 := save_release_note_to_firestore product latest acc.1
      let subs := get_new_release_note_subsections getText latest stored_release_note
      if subs.html.isEmpty then (st2, acc.2)
      else (st2, acc.2 ++ [(product, subs)])
    else acc
  | none =>
    (save_release_note_to_firestore product latest acc.1,
     acc.2 ++ [(product, latest)])

/-- Embeds `get_new_release_notes` (src/check-release-notes/main.py, lines
162-188): the per-product loop over the fetched notes, threading the
Firestore store and accumulating the notification map. -/
def get_new_release_notes (digest : List Char → List Nat)
    (getText : List Char → List Char)
    (latest_release_notes : List (String × ReleaseNote))
    (store : List (String × ReleaseNote)) :
    List (String × ReleaseNote) × List (String × ReleaseNote) :=
  latest_release_notes.foldl (process_release_note digest getText) (store, [])

/-! ## chat-client: remaining inbound flows -/

/-- Firestore `doc_ref.delete()`: drop the document with key `k` if present. -/
def removeKey {α : Type} (k : String) (l : List (String × α)) : List (String × α) :=
  l.filter (fun kv => kv.1 ≠ k)

/-- Embeds the chat-event handler `chat_app` (src/chat-client/main.py, lines
35-133) as a function of the dispatched branch's outcome: the dispatch on the
event shape has no `try` of its own (only `openInitialDialog` catches
internally and returns a fallback dialog), so an exception raised while
handling an event — e.g. inside `returnSubscriptions` or `submitDialog` —
propagates to the hosting framework instead of being converted into a
success response; a successful branch's response object is returned as is. -/
def chat_app {α : Type} (r : Except String α) : Except String α :=
  match r with
  | .ok v => .ok v
  | .error e => .error e

/-- Embeds the per-product addition fan-out of `submitDialog` (src/chat-client/
main.py, lines 488-511) together with `record_space_subscription`'s except
handler: a failing store operation raises inside the submitted task; the
handler catches it but its `print(f"...", exc_info=True)` itself raises
TypeError (builtin `print` accepts no `exc_info` keyword), which escapes into
the task's never-inspected future — so a failed addition leaves its document
unchanged and nothing is ever logged.  `fails` injects which products' store
operations raise; the per-identifier documents are distinct in the intended
data, so the concurrent fan-out is modelled as a left fold.  Returns the
final collection and the (always empty) error log. -/
def submitDialog_record_additions (space_id : String) (products : List String)
    (fails : String → Bool) (coll : List (String × List String)) :
    List (String × List String) × List String :=
  (products.foldl (fun acc product =>
      if fails product then acc
      else record_space_subscription space_id product acc) coll,
   [])

/-- Embeds the space-removal flow of `chat_app` (src/chat-client/main.py,
lines 56-117): when the bot is removed from a space, every identifier in the
space's record gets an inverted-index removal submitted to the pool (each
exception stays inside its never-inspected future), and after `futures.wait`
the record document is deleted.  The flow contains no except handler at all,
so the returned error log is empty; with no record, nothing happens. -/
def handle_removed_from_space (space_id : String) (st : ClientState) :
    ClientState × List String :=
  let key := sanitizeSpace space_id
  match st.product_space_subscriptions.lookup key with
  | some doc_dict =>
    ({ product_space_subscriptions := removeKey key st.product_space_subscriptions,
       space_product_subscriptions :=
         runRemovals unsubscribe_space_product space_id
           st.space_product_subscriptions doc_dict.products_subscribed,
       space_blog_subscriptions :=
         runRemovals unsubscribe_space_blogs space_id
           st.space_blog_subscriptions doc_dict.categories_subscribed,
       youtube_channel_subscriptions :=
         runRemovals unsubscribe_space_youtube space_id
           st.youtube_channel_subscriptions doc_dict.youtube_channels_subscribed,
       github_repo_subscriptions :=
         runRemovals unsubscribe_space_repo space_id
           st.github_repo_subscriptions doc_dict.repos_subscribed },
     [])
  | none => (st, [])

/-! ## Basic store lemmas -/

theorem lookup_cons_eq_if {α : Type} (a k : String) (b : α) (es : List (String × α)) :
    List.lookup k ((a, b) :: es) = if a = k then some b else List.lookup k es := by
  simp only [List.lookup]
  by_cases h : a = k
  · subst h; simp
  · have hb : (k == a) = false := by simp [Ne.symm h]
    simp [hb, h]

theorem lookup_setA {α : Type} (k k' : String) (v : α) (l : List (String × α)) :
    (setA k v l).lookup k' = if k = k' then some v else l.lookup k' := by
  induction l with
  | nil =>
    simp only [setA]
    rw [lookup_cons_eq_if]
  | cons hd tl ih =>
    obtain ⟨a, b⟩ := hd
    simp only [setA]
    split
    · next h =>
      subst h
      rw [lookup_cons_eq_if, lookup_cons_eq_if]
      by_cases h2 : a = k' <;> simp [h2]
    · next h =>
      rw [lookup_cons_eq_if, lookup_cons_eq_if]
      by_cases h3 : a = k'
      · subst h3
        have hka : ¬ k = a := fun hh => h hh.symm
        simp [hka]
      · simp [h3, ih]

theorem lookup_filterKey {α : Type} (p : String → Bool) (l : List (String × α))
    (k : String) :
    (l.filter (fun kv => p kv.1)).lookup k = if p k then l.lookup k else none := by
  induction l with
  | nil => simp
  | cons hd tl ih =>
    obtain ⟨a, b⟩ := hd
    by_cases hpa : p a
    · by_cases hak : a = k
      · subst hak
        simp [List.filter_cons, hpa, lookup_cons_eq_if]
      · simp [List.filter_cons, hpa, lookup_cons_eq_if, hak, ih]
    · by_cases hak : a = k
      · subst hak
        simp only [List.filter_cons, Bool.not_eq_true] at *
        simp [hpa, ih]
      · simp [List.filter_cons, hpa, lookup_cons_eq_if, hak, ih]

theorem lookup_dictUpdate_isSome {α : Type} (upd : List (String × α)) (base : List (String × α))
    (k : String) (h : (base.lookup k).isSome) :
    ((dictUpdate base upd).lookup k).isSome := by
  induction upd generalizing base with
  | nil => exact h
  | cons hd tl ih =>
    simp only [dictUpdate, List.foldl_cons] at *
    apply ih
    rw [lookup_setA]
    split <;> simp [h]

/-! ## Claim C6: novelty by identifier is a pure key difference -/

/-- C6: for the blogs, GitHub-releases and videos domains, the new-items
computation returns exactly the entries of the fetched map whose key is
absent from the stored map — a key-level set difference, polymorphic in the
payload (so no payload comparison is possible). -/
theorem claim_C6_novelty_by_identifier :
    ∀ (α : Type) (fetched stored : List (String × α)) (k : String),
      (get_new_blog_posts fetched stored).lookup k
          = (if (stored.lookup k).isSome then none else fetched.lookup k)
      ∧ (get_new_releases (some fetched) stored).lookup k
          = (if (stored.lookup k).isSome then none else fetched.lookup k)
      ∧ (get_new_videos (some fetched) stored).lookup k
          = (if (stored.lookup k).isSome then none else fetched.lookup k)
      ∧ get_new_releases (α := α) none stored = []
      ∧ get_new_videos (α := α) none stored = [] := by
  intro α fetched stored k
  have key : (fetched.filter (fun kv => (stored.lookup kv.1).isNone)).lookup k
      = if (stored.lookup k).isSome then none else fetched.lookup k := by
    rw [lookup_filterKey (fun key' => (stored.lookup key').isNone) fetched k]
    rcases h : stored.lookup k with _ | v <;> simp [h]
  exact ⟨key, key, key, rfl, rfl⟩

/-! ## Claim C4: seen-item store updates (corrected) -/

/-- C4 counterexample: the blogs checker overwrites the seen-blog store with
the day's fetched map, so a previously stored identifier absent from the
fetch is dropped — the store is not append/merge-only for blogs. -/
theorem claim_C4_counterexample :
    ((send_new_blogs_store_update [("new", 0)] [("old", 0)]).lookup "old") = none
    ∧ (([("old", 0)] : List (String × Nat)).lookup "old").isSome := by
  constructor <;> rfl

/-- C4 amended: the GitHub-releases and videos checkers preserve every
previously stored identifier (merge semantics); the blogs checker, whenever
the run found new blogs, replaces the stored map with the day's fetched map
wholesale. -/
theorem claim_C4_amended_seen_store :
    ∀ (α : Type) (k : String),
      (∀ new_releases stored : List (String × α), (stored.lookup k).isSome →
          ((store_new_releases new_releases stored).lookup k).isSome)
      ∧ (∀ all_videos stored : List (String × α), (stored.lookup k).isSome →
          ((send_new_video_notifications_store_update all_videos stored).lookup k).isSome)
      ∧ (∀ blog_map stored : List (String × α),
          (get_new_blog_posts blog_map stored).isEmpty = false →
          send_new_blogs_store_update blog_map stored = blog_map) := by
  intro α k
  refine ⟨?_, ?_, ?_⟩
  · intro new_releases stored h
    unfold store_new_releases
    split
    · exact h
    · exact lookup_dictUpdate_isSome new_releases stored k h
  · intro all_videos stored h
    unfold send_new_video_notifications_store_update
    split
    · exact h
    · exact lookup_dictUpdate_isSome all_videos stored k h
  · intro blog_map stored h
    unfold send_new_blogs_store_update
    simp [h]

/-- C4 amended, witnessed at concrete stores. -/
theorem claim_C4_amended_seen_store_witness :
    ((store_new_releases [("new", 1)] [("old", 0)]).lookup "old").isSome
    ∧ ((send_new_video_notifications_store_update [("new", 1)] [("old", 0)]).lookup "old").isSome
    ∧ send_new_blogs_store_update [("new", 1)] [("old", 0)] = [("new", 1)] :=
  ⟨(claim_C4_amended_seen_store Nat "old").1 [("new", 1)] [("old", 0)] (by decide),
   (claim_C4_amended_seen_store Nat "old").2.1 [("new", 1)] [("old", 0)] (by decide),
   (claim_C4_amended_seen_store Nat "old").2.2 [("new", 1)] [("old", 0)] (by decide)⟩

/-! ## Claim C5: handler responses on internal error (corrected) -/

/-- C5 counterexample: the GitHub checker's trigger returns a 500 error
response when its processing raises, not a success status. -/
theorem claim_C5_counterexample :
    check_github_http_request (.error "fetch failed")
        = ("An internal error occurred.", 500)
    ∧ (check_github_http_request (.error "fetch failed")).2 ≠ 200 := by
  constructor
  · rfl
  · decide

/-- C5 amended: the Pub/Sub webhook acknowledges with success regardless of
internal failure; the GitHub checker surfaces internal errors as a 500
response; the chat-event handler and the blogs, videos and release-notes
triggers have no catch-all of their own, so an internal error raised while
processing propagates to the hosting framework instead of being converted
into a success response (a successful chat-event dispatch returns its
response object unchanged). -/
theorem claim_C5_amended_handler_responses :
    (∀ r : Except String Unit, handle_pubsub_message r = ("Done", 200))
    ∧ check_github_http_request (.ok ()) = ("Processing complete.", 200)
    ∧ (∀ e, check_github_http_request (.error e) = ("An internal error occurred.", 500))
    ∧ (∀ (α : Type) (v : α), chat_app (.ok v) = .ok v)
    ∧ (∀ (α : Type) (e : String), chat_app (Except.error e : Except String α) = .error e)
    ∧ check_blogs_http_request (.ok ()) = .ok ("Done", 200)
    ∧ (∀ e, check_blogs_http_request (.error e) = .error e)
    ∧ check_youtube_http_request (.ok ()) = .ok ("Done", 200)
    ∧ (∀ e, check_youtube_http_request (.error e) = .error e)
    ∧ check_release_notes_http_request (.ok ()) = .ok ("Done", 200)
    ∧ (∀ e, check_release_notes_http_request (.error e) = .error e) := by
  refine ⟨fun r => ?_, rfl, fun e => rfl, fun α v => rfl, fun α e => rfl, rfl,
    fun e => rfl, rfl, fun e => rfl, rfl, fun e => rfl⟩
  cases r <;> rfl

/-! ## Claim C7: inverted-index add is idempotent -/

/-- C7: adding the same space to the same item's inverted-index entry twice
leaves the space appearing exactly once, both for the product index (sanitized
document key) and the repo index (verbatim document key), provided the entry
did not already hold duplicate copies of the space. -/
theorem claim_C7_inverted_index_idempotent
    (space_id product repo_name : String)
    (prodColl repoColl : List (String × List String))
    (h1 : ((prodColl.lookup (sanitizeProduct product)).getD []).count space_id ≤ 1)
    (h2 : ((repoColl.lookup repo_name).getD []).count space_id ≤ 1) :
    (((record_space_subscription space_id product
          (record_space_subscription space_id product prodColl)).lookup
        (sanitizeProduct product)).getD []).count space_id = 1
    ∧ (((record_space_repo_subscription space_id repo_name
          (record_space_repo_subscription space_id repo_name repoColl)).lookup
        repo_name).getD []).count space_id = 1 := by
  constructor
  · rcases h0 : prodColl.lookup (sanitizeProduct product) with _ | l
    · have e1 : record_space_subscription space_id product prodColl
          = setA (sanitizeProduct product) [space_id] prodColl := by
        simp [record_space_subscription, h0]
      have e2 : (setA (sanitizeProduct product) [space_id] prodColl).lookup
          (sanitizeProduct product) = some [space_id] := by
        rw [lookup_setA]; simp
      have hct : ([space_id].contains space_id) = true := by
        rw [List.elem_iff]; exact List.mem_singleton_self space_id
      have e3 : record_space_subscription space_id product
            (setA (sanitizeProduct product) [space_id] prodColl)
          = setA (sanitizeProduct product) [space_id] prodColl := by
        simp [record_space_subscription, e2, hct]
      rw [e1, e3, e2]
      simp [List.count_singleton]
    · rw [h0] at h1
      simp only [Option.getD_some] at h1
      by_cases hc : l.contains space_id = true
      · have hmem : space_id ∈ l := List.elem_iff.mp hc
        have e1 : record_space_subscription space_id product prodColl = prodColl := by
          simp [record_space_subscription, h0, hmem]
        rw [e1, e1, h0]
        have hpos : 0 < l.count space_id := List.count_pos_iff.mpr hmem
        simp only [Option.getD_some]
        omega
      · have hnot : space_id ∉ l := fun hmem => hc (List.elem_iff.mpr hmem)
        have e1 : record_space_subscription space_id product prodColl
            = setA (sanitizeProduct product) (l ++ [space_id]) prodColl := by
          simp [record_space_subscription, h0, hnot]
        have e2 : (setA (sanitizeProduct product) (l ++ [space_id]) prodColl).lookup
            (sanitizeProduct product) = some (l ++ [space_id]) := by
          rw [lookup_setA]; simp
        have hct : ((l ++ [space_id]).contains space_id) = true := by
          rw [List.elem_iff]
          exact List.mem_append_right l (List.mem_singleton_self space_id)
        have e3 : record_space_subscription space_id product
              (setA (sanitizeProduct product) (l ++ [space_id]) prodColl)
            = setA (sanitizeProduct product) (l ++ [space_id]) prodColl := by
          simp [record_space_subscription, e2, hct]
        rw [e1, e3, e2]
        simp only [Option.getD_some, List.count_append]
        simp [List.count_eq_zero.mpr hnot, List.count_singleton]
  · rcases h0 : repoColl.lookup repo_name with _ | l
    · have e1 : record_space_repo_subscription space_id repo_name repoColl
          = setA repo_name [space_id] repoColl := by
        simp [record_space_repo_subscription, h0]
      have e2 : (setA repo_name [space_id] repoColl).lookup repo_name
          = some [space_id] := by
        rw [lookup_setA]; simp
      have hct : ([space_id].contains space_id) = true := by
        rw [List.elem_iff]; exact List.mem_singleton_self space_id
      have e3 : record_space_repo_subscription space_id repo_name
            (setA repo_name [space_id] repoColl)
          = setA repo_name [space_id] repoColl := by
        simp [record_space_repo_subscription, e2, hct]
      rw [e1, e3, e2]
      simp [List.count_singleton]
    · rw [h0] at h2
      simp only [Option.getD_some] at h2
      by_cases hc : l.contains space_id = true
      · have hmem : space_id ∈ l := List.elem_iff.mp hc
        have e1 : record_space_repo_subscription space_id repo_name repoColl
            = repoColl := by
          simp [record_space_repo_subscription, h0, hmem]
        rw [e1, e1, h0]
        have hpos : 0 < l.count space_id := List.count_pos_iff.mpr hmem
        simp only [Option.getD_some]
        omega
      · have hnot : space_id ∉ l := fun hmem => hc (List.elem_iff.mpr hmem)
        have e1 : record_space_repo_subscription space_id repo_name repoColl
            = setA repo_name (l ++ [space_id]) repoColl := by
          simp [record_space_repo_subscription, h0, hnot]
        have e2 : (setA repo_name (l ++ [space_id]) repoColl).lookup repo_name
            = some (l ++ [space_id]) := by
          rw [lookup_setA]; simp
        have hct : ((l ++ [space_id]).contains space_id) = true := by
          rw [List.elem_iff]
          exact List.mem_append_right l (List.mem_singleton_self space_id)
        have e3 : record_space_repo_subscription space_id repo_name
              (setA repo_name (l ++ [space_id]) repoColl)
            = setA repo_name (l ++ [space_id]) repoColl := by
          simp [record_space_repo_subscription, e2, hct]
        rw [e1, e3, e2]
        simp only [Option.getD_some, List.count_append]
        simp [List.count_eq_zero.mpr hnot, List.count_singleton]

/-- C7 witnessed at a concrete store: a fresh product entry and a repo entry
already holding the space once. -/
theorem claim_C7_inverted_index_idempotent_witness :
    ((([] : List (String × List String)).lookup (sanitizeProduct "BigQuery")).getD
        []).count "s1" ≤ 1
    ∧ ((([("r", ["s1"])] : List (String × List String)).lookup "r").getD
        []).count "s1" ≤ 1
    ∧ (((record_space_subscription "s1" "BigQuery"
          (record_space_subscription "s1" "BigQuery" [])).lookup
        (sanitizeProduct "BigQuery")).getD []).count "s1" = 1
    ∧ (((record_space_repo_subscription "s1" "r"
          (record_space_repo_subscription "s1" "r" [("r", ["s1"])])).lookup
        "r").getD []).count "s1" = 1 := by
  refine ⟨by decide, by decide, ?_⟩
  exact claim_C7_inverted_index_idempotent "s1" "BigQuery" "r" [] [("r", ["s1"])]
    (by decide) (by decide)

/-! ## Claim C2: tag suppresses members -/

theorem mem_foldl_append {β : Type} (g : String → List β) (l : List String)
    (a : List β) (x : β) :
    x ∈ l.foldl (fun acc t => acc ++ g t) a ↔ x ∈ a ∨ ∃ t ∈ l, x ∈ g t := by
  induction l generalizing a with
  | nil => simp
  | cons hd tl ih =>
    simp only [List.foldl_cons]
    rw [ih]
    simp only [List.mem_append, List.mem_cons]
    constructor
    · rintro ((hx | hx) | ⟨t, ht, hx⟩)
      · exact Or.inl hx
      · exact Or.inr ⟨hd, Or.inl rfl, hx⟩
      · exact Or.inr ⟨t, Or.inr ht, hx⟩
    · rintro (hx | ⟨t, (rfl | ht), hx⟩)
      · exact Or.inl (Or.inl hx)
      · exact Or.inl (Or.inr hx)
      · exact Or.inr ⟨t, ht, hx⟩

theorem mem_covered_iff (category_map : List (String × List String))
    (subscribed : List String) (x : String) :
    x ∈ covered_by_active_tags category_map subscribed
      ↔ ∃ t ∈ active_tags category_map subscribed, x ∈ get_members_only t category_map := by
  unfold covered_by_active_tags
  rw [mem_foldl_append]
  simp

/-- C2: with a persisted record, no domain-wide override, and at least one
active category tag, the dialog marks an item selected iff it is itself an
active tag, or it is subscribed and not covered by some active tag's
members-only set; in particular a non-tag member of an active tag is never
marked selected, even when it is literally present in the subscribed set. -/
theorem claim_C2_tag_suppresses_members (override_tag : String)
    (category_map : List (String × List String))
    (all_possible subscribed : List String)
    (hover : subscribed.contains override_tag = false)
    (htag : ∃ t, t ∈ category_map.map Prod.fst ∧ t ∈ subscribed) :
    (∀ p ∈ openInitialDialog_selection override_tag category_map all_possible true
        subscribed,
      p.2 = ((active_tags category_map subscribed).contains p.1 ||
        (subscribed.contains p.1 &&
          !((covered_by_active_tags category_map subscribed).contains p.1))))
    ∧ (∀ t m, t ∈ active_tags category_map subscribed →
        m ∈ get_members_only t category_map →
        m ∉ active_tags category_map subscribed →
        ∀ p ∈ openInitialDialog_selection override_tag category_map all_possible true
            subscribed,
          p.1 = m → p.2 = false) := by
  have hsel : openInitialDialog_selection override_tag category_map all_possible true
      subscribed
      = all_possible.map (fun item =>
          (item, (active_tags category_map subscribed).contains item ||
            (subscribed.contains item &&
              !((covered_by_active_tags category_map subscribed).contains item)))) := by
    unfold openInitialDialog_selection
    rw [hover]
    simp
  constructor
  · intro p hp
    rw [hsel] at hp
    obtain ⟨item, _, rfl⟩ := List.mem_map.mp hp
    rfl
  · intro t m ht hm hmna p hp hpm
    rw [hsel] at hp
    obtain ⟨item, _, rfl⟩ := List.mem_map.mp hp
    simp only at hpm
    subst hpm
    have hcov : item ∈ covered_by_active_tags category_map subscribed :=
      (mem_covered_iff category_map subscribed item).mpr ⟨t, ht, hm⟩
    have h1 : (active_tags category_map subscribed).contains item = false := by
      rcases h : (active_tags category_map subscribed).contains item with _ | _
      · rfl
      · exact absurd (List.elem_iff.mp h) hmna
    have h2 : (covered_by_active_tags category_map subscribed).contains item = true :=
      List.elem_iff.mpr hcov
    simp [h1, h2]
    exact ⟨hmna, fun _ => hcov⟩

/-- C2 witnessed on the spec's example: subscribed set holding the tag
"All Data Products" and its member "BigQuery"; the member is not selected. -/
theorem claim_C2_tag_suppresses_members_witness :
    (["All Data Products", "BigQuery"].contains "All Products" = false)
    ∧ (∀ p ∈ openInitialDialog_selection "All Products"
          [("All Data Products", ["BigQuery", "Dataflow"])]
          ["All Data Products", "BigQuery", "Dataflow"] true
          ["All Data Products", "BigQuery"],
        p.2 = ((active_tags [("All Data Products", ["BigQuery", "Dataflow"])]
            ["All Data Products", "BigQuery"]).contains p.1 ||
          (["All Data Products", "BigQuery"].contains p.1 &&
            !((covered_by_active_tags [("All Data Products", ["BigQuery", "Dataflow"])]
              ["All Data Products", "BigQuery"]).contains p.1))))
    ∧ (∀ p ∈ openInitialDialog_selection "All Products"
          [("All Data Products", ["BigQuery", "Dataflow"])]
          ["All Data Products", "BigQuery", "Dataflow"] true
          ["All Data Products", "BigQuery"],
        p.1 = "BigQuery" → p.2 = false) := by
  have h := claim_C2_tag_suppresses_members "All Products"
    [("All Data Products", ["BigQuery", "Dataflow"])]
    ["All Data Products", "BigQuery", "Dataflow"]
    ["All Data Products", "BigQuery"]
    (by decide)
    ⟨"All Data Products", by decide, by decide⟩
  refine ⟨by decide, h.1, ?_⟩
  intro p hp hpm
  exact h.2 "All Data Products" "BigQuery" (by decide) (by decide) (by decide) p hp hpm

/-! ## Order lemmas for `sortedDedup` -/

theorem lexLe_cons_iff {a b : Char} {as bs : List Char} :
    lexLe (a :: as) (b :: bs) = true ↔
      a.toNat < b.toNat ∨ (a.toNat = b.toNat ∧ lexLe as bs = true) := by
  simp only [lexLe]
  split_ifs with h1 h2
  · simp [h1]
  · simp [h1, h2]
  · simp only [false_iff]
    rintro (h | ⟨h, _⟩)
    · exact h1 h
    · exact h2 h

theorem lexLe_total : ∀ a b, lexLe a b || lexLe b a := by
  intro a
  induction a with
  | nil => intro b; simp [lexLe]
  | cons x xs ih =>
    intro b
    cases b with
    | nil => simp [lexLe]
    | cons y ys =>
      simp only [Bool.or_eq_true, lexLe_cons_iff]
      rcases Nat.lt_trichotomy x.toNat y.toNat with h | h | h
      · exact Or.inl (Or.inl h)
      · rcases Bool.or_eq_true _ _ |>.mp (ih ys) with h2 | h2
        · exact Or.inl (Or.inr ⟨h, h2⟩)
        · exact Or.inr (Or.inr ⟨h.symm, h2⟩)
      · exact Or.inr (Or.inl h)

theorem lexLe_trans : ∀ a b c, lexLe a b → lexLe b c → lexLe a c := by
  intro a
  induction a with
  | nil => intro b c _ _; simp [lexLe]
  | cons x xs ih =>
    intro b c hab hbc
    cases b with
    | nil => simp [lexLe] at hab
    | cons y ys =>
      cases c with
      | nil => simp [lexLe] at hbc
      | cons z zs =>
        rw [lexLe_cons_iff] at hab hbc ⊢
        rcases hab with h1 | ⟨h1, p1⟩ <;> rcases hbc with h2 | ⟨h2, p2⟩
        · exact Or.inl (by omega)
        · exact Or.inl (by omega)
        · exact Or.inl (by omega)
        · exact Or.inr ⟨by omega, ih ys zs p1 p2⟩

theorem lexLe_antisymm : ∀ a b, lexLe a b → lexLe b a → a = b := by
  intro a
  induction a with
  | nil =>
    intro b _ hba
    cases b with
    | nil => rfl
    | cons y ys => simp [lexLe] at hba
  | cons x xs ih =>
    intro b hab hba
    cases b with
    | nil => simp [lexLe] at hab
    | cons y ys =>
      rw [lexLe_cons_iff] at hab hba
      rcases hab with h1 | ⟨h1, p1⟩ <;> rcases hba with h2 | ⟨h2, p2⟩ <;> try omega
      have hx : x = y := Char.eq_of_val_eq (UInt32.ext h1)
      rw [hx, ih ys p1 p2]

theorem sortedDedup_congr {l₁ l₂ : List String} (h : ∀ x, x ∈ l₁ ↔ x ∈ l₂) :
    sortedDedup l₁ = sortedDedup l₂ := by
  haveI : IsAntisymm String strLe :=
    ⟨fun a b hab hba => String.ext (lexLe_antisymm a.data b.data hab hba)⟩
  haveI : IsTotal String strLe :=
    ⟨fun a b => by
      rcases Bool.or_eq_true _ _ |>.mp (lexLe_total a.data b.data) with h | h
      · exact Or.inl h
      · exact Or.inr h⟩
  haveI : IsTrans String strLe :=
    ⟨fun a b c => lexLe_trans a.data b.data c.data⟩
  have hperm : l₁.dedup.Perm l₂.dedup := by
    rw [List.perm_ext_iff_of_nodup l₁.nodup_dedup l₂.nodup_dedup]
    intro a
    simp only [List.mem_dedup]
    exact h a
  have h1 := List.perm_insertionSort strLe l₁.dedup
  have h2 := List.perm_insertionSort strLe l₂.dedup
  have hs1 := List.sorted_insertionSort strLe l₁.dedup
  have hs2 := List.sorted_insertionSort strLe l₂.dedup
  exact List.eq_of_perm_of_sorted (h1.trans (hperm.trans h2.symm)) hs1 hs2

theorem sortedDedup_mem {l : List String} {x : String} : x ∈ sortedDedup l ↔ x ∈ l := by
  unfold sortedDedup
  rw [(List.perm_insertionSort strLe l.dedup).mem_iff]
  exact List.mem_dedup

/-! ## Claim C8: re-expansion is idempotent -/

theorem mem_foldl_append_if (category_map : List (String × List String))
    (cond : String × List String → Bool) (a : List String) (x : String) :
    x ∈ category_map.foldl
        (fun acc p => if cond p then acc ++ p.2 else acc) a
      ↔ x ∈ a ∨ ∃ p ∈ category_map, cond p = true ∧ x ∈ p.2 := by
  induction category_map generalizing a with
  | nil => simp
  | cons hd tl ih =>
    simp only [List.foldl_cons]
    by_cases hc : cond hd
    · rw [if_pos hc, ih]
      simp only [List.mem_append, List.mem_cons]
      constructor
      · rintro ((hx | hx) | ⟨p, hp, hcp, hx⟩)
        · exact Or.inl hx
        · exact Or.inr ⟨hd, Or.inl rfl, hc, hx⟩
        · exact Or.inr ⟨p, Or.inr hp, hcp, hx⟩
      · rintro (hx | ⟨p, (rfl | hp), hcp, hx⟩)
        · exact Or.inl (Or.inl hx)
        · exact Or.inl (Or.inr hx)
        · exact Or.inr ⟨p, hp, hcp, hx⟩
    · rw [if_neg hc, ih]
      constructor
      · rintro (hx | ⟨p, hp, hcp, hx⟩)
        · exact Or.inl hx
        · exact Or.inr ⟨p, List.mem_cons_of_mem hd hp, hcp, hx⟩
      · rintro (hx | ⟨p, hp, hcp, hx⟩)
        · exact Or.inl hx
        · rcases List.mem_cons.mp hp with rfl | hp
          · exact absurd hcp (by simp [hc])
          · exact Or.inr ⟨p, hp, hcp, hx⟩

/-- C8: expanding an already-expanded selection is a no-op, under the
data-shape facts the category configuration satisfies (modelled from the
spec, since the concrete `client_utils` lists are not among the sources):
every member of a category is in the selectable universe, the domain
override tag is not a member of any category, and no category tag is a
member of any category's member list (in particular no tag is a member of
itself). -/
theorem claim_C8_expansion_idempotent (override : String)
    (all_products : List String) (category_map : List (String × List String))
    (products : List String)
    (hmem : ∀ p ∈ category_map, ∀ m ∈ p.2, m ∈ all_products)
    (hovr : ∀ p ∈ category_map, override ∉ p.2)
    (htags : ∀ p ∈ category_map, ∀ q ∈ category_map, q.1 ∉ p.2) :
    (handle_templatized_notes_inputs override all_products category_map
        (handle_templatized_notes_inputs override all_products category_map
          products).1).1
      = (handle_templatized_notes_inputs override all_products category_map
          products).1 := by
  by_cases hov : products.contains override = true
  · have hstep1 : (handle_templatized_notes_inputs override all_products category_map
        products).1 = sortedDedup all_products := by
      unfold handle_templatized_notes_inputs
      rw [hov, if_pos rfl]
    rw [hstep1]
    by_cases h2 : (sortedDedup all_products).contains override = true
    · unfold handle_templatized_notes_inputs
      rw [h2, if_pos rfl]
    · unfold handle_templatized_notes_inputs
      rw [Bool.not_eq_true] at h2
      rw [h2, if_neg Bool.false_ne_true]
      dsimp only
      apply sortedDedup_congr
      intro x
      rw [mem_foldl_append_if]
      constructor
      · rintro (hx | ⟨p, hp, _, hx⟩)
        · exact sortedDedup_mem.mp hx
        · exact hmem p hp x hx
      · intro hx
        exact Or.inl (sortedDedup_mem.mpr hx)
  · rw [Bool.not_eq_true] at hov
    have hstep1 : (handle_templatized_notes_inputs override all_products category_map
        products).1
        = sortedDedup (category_map.foldl
            (fun acc p => if products.contains p.1 then acc ++ p.2 else acc)
            products) := by
      unfold handle_templatized_notes_inputs
      rw [hov, if_neg Bool.false_ne_true]
    have hovmem : override ∉ category_map.foldl
        (fun acc p => if products.contains p.1 then acc ++ p.2 else acc) products := by
      rw [mem_foldl_append_if]
      rintro (hx | ⟨p, hp, _, hx⟩)
      · have : products.contains override = true := List.elem_iff.mpr hx
        rw [hov] at this
        exact Bool.false_ne_true this
      · exact hovr p hp hx
    set S := (handle_templatized_notes_inputs override all_products category_map
        products).1 with hSdef
    have hS : S.contains override = false := by
      rw [hstep1]
      rcases h : (sortedDedup _).contains override with _ | _
      · rfl
      · exact absurd (sortedDedup_mem.mp (List.elem_iff.mp h)) hovmem
    unfold handle_templatized_notes_inputs
    rw [hS, if_neg Bool.false_ne_true]
    dsimp only
    conv_rhs => rw [hstep1]
    apply sortedDedup_congr
    intro x
    rw [mem_foldl_append_if, mem_foldl_append_if]
    constructor
    · rintro (hx | ⟨p, hp, hcp, hx⟩)
      · rw [hstep1, sortedDedup_mem, mem_foldl_append_if] at hx
        exact hx
      · have hmemp : p.1 ∈ S := List.elem_iff.mp hcp
        rw [hstep1, sortedDedup_mem, mem_foldl_append_if] at hmemp
        rcases hmemp with hpin | ⟨q, hq, _, hpq⟩
        · exact Or.inr ⟨p, hp, List.elem_iff.mpr hpin, hx⟩
        · exact absurd hpq (htags q hq p hp)
    · intro hx
      apply Or.inl
      rw [hstep1, sortedDedup_mem, mem_foldl_append_if]
      exact hx

/-- C8 witnessed at a concrete category configuration and selection. -/
theorem claim_C8_expansion_idempotent_witness :
    (∀ p ∈ [("All Data Products", ["BigQuery", "Dataflow"])],
        ∀ m ∈ p.2, m ∈ ["All Products", "All Data Products", "BigQuery",
          "Dataflow", "Compute"])
    ∧ (∀ p ∈ [("All Data Products", ["BigQuery", "Dataflow"])],
        "All Products" ∉ p.2)
    ∧ (∀ p ∈ [("All Data Products", ["BigQuery", "Dataflow"])],
        ∀ q ∈ [("All Data Products", ["BigQuery", "Dataflow"])], q.1 ∉ p.2)
    ∧ (handle_templatized_notes_inputs "All Products"
        ["All Products", "All Data Products", "BigQuery", "Dataflow", "Compute"]
        [("All Data Products", ["BigQuery", "Dataflow"])]
        (handle_templatized_notes_inputs "All Products"
          ["All Products", "All Data Products", "BigQuery", "Dataflow", "Compute"]
          [("All Data Products", ["BigQuery", "Dataflow"])]
          ["All Data Products", "Compute"]).1).1
      = (handle_templatized_notes_inputs "All Products"
          ["All Products", "All Data Products", "BigQuery", "Dataflow", "Compute"]
          [("All Data Products", ["BigQuery", "Dataflow"])]
          ["All Data Products", "Compute"]).1 :=
  ⟨by decide, by decide, by decide,
   claim_C8_expansion_idempotent "All Products"
     ["All Products", "All Data Products", "BigQuery", "Dataflow", "Compute"]
     [("All Data Products", ["BigQuery", "Dataflow"])]
     ["All Data Products", "Compute"]
     (by decide) (by decide) (by decide)⟩

/-! ## Claims C3 and C9: the subscription ledger -/

theorem mem_unsubscribed_ids (prev new : List String) (x : String) :
    x ∈ unsubscribed_ids prev new ↔ x ∈ prev ∧ x ∉ new := by
  unfold unsubscribed_ids
  rw [List.mem_dedup, List.mem_filter]
  simp [List.elem_iff]

theorem runRemovals_product_preserve (space_id : String) (ids : List String)
    (coll : List (String × List String)) (key : String)
    (h : ∀ id ∈ ids, sanitizeProduct id ≠ key) :
    (runRemovals unsubscribe_space_product space_id coll ids).lookup key
      = coll.lookup key := by
  induction ids generalizing coll with
  | nil => rfl
  | cons hd tl ih =>
    simp only [runRemovals, List.foldl_cons] at *
    rcases h0 : unsubscribe_space_product space_id coll hd with e | c2
    · exact ih coll (fun id hid => h id (List.mem_cons_of_mem hd hid))
    · have hc2 : c2.lookup key = coll.lookup key := by
        simp only [unsubscribe_space_product] at h0
        rcases h1 : coll.lookup (sanitizeProduct hd) with _ | spaces
        · rw [h1] at h0; cases h0
        · rw [h1] at h0
          simp only [Except.ok.injEq] at h0
          rw [← h0, lookup_setA]
          rw [if_neg (h hd (List.mem_cons_self hd tl))]
      rw [ih c2 (fun id hid => h id (List.mem_cons_of_mem hd hid))]
      exact hc2

theorem runRemovals_product_removes (space_id : String) (ids : List String)
    (coll : List (String × List String)) (x : String) (l : List String)
    (hx : x ∈ ids)
    (hnodup : (ids.map sanitizeProduct).Nodup)
    (hdoc : coll.lookup (sanitizeProduct x) = some l) :
    (runRemovals unsubscribe_space_product space_id coll ids).lookup
        (sanitizeProduct x)
      = some (l.filter (fun s => s ≠ space_id)) := by
  induction ids generalizing coll l with
  | nil => cases hx
  | cons hd tl ih =>
    simp only [List.map_cons, List.nodup_cons] at hnodup
    rcases List.mem_cons.mp hx with rfl | hxl
    · simp only [runRemovals, List.foldl_cons]
      have h0 : unsubscribe_space_product space_id coll x
          = .ok (setA (sanitizeProduct x)
              (l.filter (fun s => s ≠ space_id)) coll) := by
        simp only [unsubscribe_space_product]
        rw [hdoc]
      rw [h0]
      have hpres : ∀ id ∈ tl, sanitizeProduct id ≠ sanitizeProduct x := by
        intro id hid heq
        exact hnodup.1 (heq ▸ List.mem_map_of_mem sanitizeProduct hid)
      have := runRemovals_product_preserve space_id tl
        (setA (sanitizeProduct x) (l.filter (fun s => s ≠ space_id)) coll)
        (sanitizeProduct x) hpres
      simp only [runRemovals] at this
      rw [this, lookup_setA, if_pos rfl]
    · have hne : sanitizeProduct hd ≠ sanitizeProduct x := fun heq =>
        hnodup.1 (heq ▸ List.mem_map_of_mem sanitizeProduct hxl)
      simp only [runRemovals, List.foldl_cons]
      rcases h0 : unsubscribe_space_product space_id coll hd with e | c2
      · exact ih coll l hxl hnodup.2 hdoc
      · have hc2 : c2.lookup (sanitizeProduct x) = some l := by
          simp only [unsubscribe_space_product] at h0
          rcases h1 : coll.lookup (sanitizeProduct hd) with _ | spaces
          · rw [h1] at h0; cases h0
          · rw [h1] at h0
            simp only [Except.ok.injEq] at h0
            rw [← h0, lookup_setA, if_neg hne]
            exact hdoc
        exact ih c2 l hxl hnodup.2 hc2

/-- C3: with a prior record, the dialog submission issues inverted-index
removals for exactly the per-domain set differences previous ∖ new, and the
space's record is overwritten with exactly the newly submitted sets. -/
theorem claim_C3_ledger_delta (space_id : String)
    (products categories youtube_channels repos : List String)
    (st : ClientState) (prev : SubRecord)
    (hprev : st.product_space_subscriptions.lookup (sanitizeSpace space_id)
      = some prev) :
    (∀ x, ("space_product_subscriptions", x)
        ∈ (record_product_subscription space_id products categories
            youtube_channels repos st).2.1
      ↔ (x ∈ prev.products_subscribed ∧ x ∉ products))
    ∧ (∀ x, ("space_blog_subscriptions", x)
        ∈ (record_product_subscription space_id products categories
            youtube_channels repos st).2.1
      ↔ (x ∈ prev.categories_subscribed ∧ x ∉ categories))
    ∧ (∀ x, ("youtube_channel_subscriptions", x)
        ∈ (record_product_subscription space_id products categories
            youtube_channels repos st).2.1
      ↔ (x ∈ prev.youtube_channels_subscribed ∧ x ∉ youtube_channels))
    ∧ (∀ x, ("github_repo_subscriptions", x)
        ∈ (record_product_subscription space_id products categories
            youtube_channels repos st).2.1
      ↔ (x ∈ prev.repos_subscribed ∧ x ∉ repos))
    ∧ (record_product_subscription space_id products categories youtube_channels
          repos st).1.product_space_subscriptions.lookup (sanitizeSpace space_id)
        = some ⟨products, categories, youtube_channels, repos⟩ := by
  have hu : record_product_subscription space_id products categories
      youtube_channels repos st
      = ({ product_space_subscriptions :=
            setA (sanitizeSpace space_id)
              ⟨products, categories, youtube_channels, repos⟩
              st.product_space_subscriptions,
           space_product_subscriptions :=
             runRemovals unsubscribe_space_product space_id
               st.space_product_subscriptions
               (unsubscribed_ids prev.products_subscribed products),
           space_blog_subscriptions :=
             runRemovals unsubscribe_space_blogs space_id
               st.space_blog_subscriptions
               (unsubscribed_ids prev.categories_subscribed categories),
           youtube_channel_subscriptions :=
             runRemovals unsubscribe_space_youtube space_id
               st.youtube_channel_subscriptions
               (unsubscribed_ids prev.youtube_channels_subscribed youtube_channels),
           github_repo_subscriptions :=
             runRemovals unsubscribe_space_repo space_id
               st.github_repo_subscriptions
               (unsubscribed_ids prev.repos_subscribed repos) },
         (unsubscribed_ids prev.products_subscribed products).map
             (fun p => ("space_product_subscriptions", p))
           ++ (unsubscribed_ids prev.categories_subscribed categories).map
             (fun c => ("space_blog_subscriptions", c))
           ++ (unsubscribed_ids prev.youtube_channels_subscribed
               youtube_channels).map
             (fun y => ("youtube_channel_subscriptions", y))
           ++ (unsubscribed_ids prev.repos_subscribed repos).map
             (fun r => ("github_repo_subscriptions", r)),
         []) := by
    simp only [record_product_subscription, hprev]
  rw [hu]
  refine ⟨?_, ?_, ?_, ?_, ?_⟩
  · intro x
    simp only [List.mem_append, List.mem_map]
    rw [← mem_unsubscribed_ids prev.products_subscribed products x]
    constructor
    · rintro (((⟨p, hp, hpe⟩ | ⟨c, _, hce⟩) | ⟨y, _, hye⟩) | ⟨r, _, hre⟩)
      · obtain ⟨-, rfl⟩ : "space_product_subscriptions" = "space_product_subscriptions"
            ∧ p = x := by
          constructor
          · rfl
          · exact (Prod.mk.injEq _ _ _ _ ▸ hpe).2
        exact hp
      · exact absurd (Prod.mk.injEq _ _ _ _ ▸ hce).1 (by decide)
      · exact absurd (Prod.mk.injEq _ _ _ _ ▸ hye).1 (by decide)
      · exact absurd (Prod.mk.injEq _ _ _ _ ▸ hre).1 (by decide)
    · intro hx
      exact Or.inl (Or.inl (Or.inl ⟨x, hx, rfl⟩))
  · intro x
    simp only [List.mem_append, List.mem_map]
    rw [← mem_unsubscribed_ids prev.categories_subscribed categories x]
    constructor
    · rintro (((⟨p, _, hpe⟩ | ⟨c, hc, hce⟩) | ⟨y, _, hye⟩) | ⟨r, _, hre⟩)
      · exact absurd (Prod.mk.injEq _ _ _ _ ▸ hpe).1 (by decide)
      · have : c = x := (Prod.mk.injEq _ _ _ _ ▸ hce).2
        exact this ▸ hc
      · exact absurd (Prod.mk.injEq _ _ _ _ ▸ hye).1 (by decide)
      · exact absurd (Prod.mk.injEq _ _ _ _ ▸ hre).1 (by decide)
    · intro hx
      exact Or.inl (Or.inl (Or.inr ⟨x, hx, rfl⟩))
  · intro x
    simp only [List.mem_append, List.mem_map]
    rw [← mem_unsubscribed_ids prev.youtube_channels_subscribed youtube_channels x]
    constructor
    · rintro (((⟨p, _, hpe⟩ | ⟨c, _, hce⟩) | ⟨y, hy, hye⟩) | ⟨r, _, hre⟩)
      · exact absurd (Prod.mk.injEq _ _ _ _ ▸ hpe).1 (by decide)
      · exact absurd (Prod.mk.injEq _ _ _ _ ▸ hce).1 (by decide)
      · have : y = x := (Prod.mk.injEq _ _ _ _ ▸ hye).2
        exact this ▸ hy
      · exact absurd (Prod.mk.injEq _ _ _ _ ▸ hre).1 (by decide)
    · intro hx
      exact Or.inl (Or.inr ⟨x, hx, rfl⟩)
  · intro x
    simp only [List.mem_append, List.mem_map]
    rw [← mem_unsubscribed_ids prev.repos_subscribed repos x]
    constructor
    · rintro (((⟨p, _, hpe⟩ | ⟨c, _, hce⟩) | ⟨y, _, hye⟩) | ⟨r, hr, hre⟩)
      · exact absurd (Prod.mk.injEq _ _ _ _ ▸ hpe).1 (by decide)
      · exact absurd (Prod.mk.injEq _ _ _ _ ▸ hce).1 (by decide)
      · exact absurd (Prod.mk.injEq _ _ _ _ ▸ hye).1 (by decide)
      · have : r = x := (Prod.mk.injEq _ _ _ _ ▸ hre).2
        exact this ▸ hr
    · intro hx
      exact Or.inr ⟨x, hx, rfl⟩
  · rw [lookup_setA, if_pos rfl]

/-- C3 witnessed on the spec's example: prior products {A,B,C}, new submission
{B} — removals issued exactly for A and C, record replaced by {B}. -/
theorem claim_C3_ledger_delta_witness :
    (ClientState.product_space_subscriptions
        ⟨[("s1", ⟨["A", "B", "C"], [], [], []⟩)],
         [("A", ["s1"]), ("B", ["s1"]), ("C", ["s1"])], [], [], []⟩).lookup
        (sanitizeSpace "s1") = some ⟨["A", "B", "C"], [], [], []⟩
    ∧ (("space_product_subscriptions", "A")
        ∈ (record_product_subscription "s1" ["B"] [] [] []
            ⟨[("s1", ⟨["A", "B", "C"], [], [], []⟩)],
             [("A", ["s1"]), ("B", ["s1"]), ("C", ["s1"])], [], [], []⟩).2.1
      ↔ ("A" ∈ ["A", "B", "C"] ∧ "A" ∉ (["B"] : List String)))
    ∧ (record_product_subscription "s1" ["B"] [] [] []
          ⟨[("s1", ⟨["A", "B", "C"], [], [], []⟩)],
           [("A", ["s1"]), ("B", ["s1"]), ("C", ["s1"])], [], [], []⟩).1.product_space_subscriptions.lookup
          (sanitizeSpace "s1")
        = some ⟨["B"], [], [], []⟩ := by
  have h := claim_C3_ledger_delta "s1" ["B"] [] [] []
    ⟨[("s1", ⟨["A", "B", "C"], [], [], []⟩)],
     [("A", ["s1"]), ("B", ["s1"]), ("C", ["s1"])], [], [], []⟩
    ⟨["A", "B", "C"], [], [], []⟩ (by decide)
  exact ⟨by decide, h.1 "A", h.2.2.2.2⟩

/-- C9 counterexample: in a dialog submission where the removal of product
"A" fails (its inverted-index document does not exist), the removal is
issued, the sibling removal of "B" is applied, the record write completes —
and nothing at all is logged, contradicting "a failure of one call is
logged". -/
theorem claim_C9_counterexample :
    ("space_product_subscriptions", "A")
      ∈ (record_product_subscription "s1" [] [] [] []
          ⟨[("s1", ⟨["A", "B"], [], [], []⟩)], [("B", ["s1", "s2"])],
           [], [], []⟩).2.1
    ∧ (ClientState.space_product_subscriptions
        ⟨[("s1", ⟨["A", "B"], [], [], []⟩)], [("B", ["s1", "s2"])],
         [], [], []⟩).lookup "A" = none
    ∧ (record_product_subscription "s1" [] [] [] []
        ⟨[("s1", ⟨["A", "B"], [], [], []⟩)], [("B", ["s1", "s2"])],
         [], [], []⟩).1.space_product_subscriptions.lookup "A" = none
    ∧ (record_product_subscription "s1" [] [] [] []
        ⟨[("s1", ⟨["A", "B"], [], [], []⟩)], [("B", ["s1", "s2"])],
         [], [], []⟩).1.space_product_subscriptions.lookup "B" = some ["s2"]
    ∧ (record_product_subscription "s1" [] [] [] []
        ⟨[("s1", ⟨["A", "B"], [], [], []⟩)], [("B", ["s1", "s2"])],
         [], [], []⟩).1.product_space_subscriptions.lookup "s1"
        = some ⟨[], [], [], []⟩
    ∧ (record_product_subscription "s1" [] [] [] []
        ⟨[("s1", ⟨["A", "B"], [], [], []⟩)], [("B", ["s1", "s2"])],
         [], [], []⟩).2.2 = [] := by
  decide

theorem record_space_subscription_preserve (space_id product key : String)
    (coll : List (String × List String)) (h : sanitizeProduct product ≠ key) :
    (record_space_subscription space_id product coll).lookup key
      = coll.lookup key := by
  rcases h0 : coll.lookup (sanitizeProduct product) with _ | spaces
  · have e1 : record_space_subscription space_id product coll
        = setA (sanitizeProduct product) [space_id] coll := by
      simp [record_space_subscription, h0]
    rw [e1, lookup_setA, if_neg h]
  · by_cases hc : space_id ∈ spaces
    · have e1 : record_space_subscription space_id product coll = coll := by
        simp [record_space_subscription, h0, hc]
      rw [e1]
    · have e1 : record_space_subscription space_id product coll
          = setA (sanitizeProduct product) (spaces ++ [space_id]) coll := by
        simp [record_space_subscription, h0, hc]
      rw [e1, lookup_setA, if_neg h]

theorem record_space_subscription_mem (space_id product : String)
    (coll : List (String × List String)) :
    space_id ∈ ((record_space_subscription space_id product coll).lookup
        (sanitizeProduct product)).getD [] := by
  rcases h0 : coll.lookup (sanitizeProduct product) with _ | spaces
  · have e1 : record_space_subscription space_id product coll
        = setA (sanitizeProduct product) [space_id] coll := by
      simp [record_space_subscription, h0]
    rw [e1, lookup_setA, if_pos rfl]
    simp
  · by_cases hc : space_id ∈ spaces
    · have e1 : record_space_subscription space_id product coll = coll := by
        simp [record_space_subscription, h0, hc]
      rw [e1, h0]
      simpa using hc
    · have e1 : record_space_subscription space_id product coll
          = setA (sanitizeProduct product) (spaces ++ [space_id]) coll := by
        simp [record_space_subscription, h0, hc]
      rw [e1, lookup_setA, if_pos rfl]
      simp

theorem additions_fold_preserve (space_id : String) (fails : String → Bool)
    (key : String) :
    ∀ (l : List String) (coll : List (String × List String)),
      (∀ q ∈ l, sanitizeProduct q ≠ key) →
      (l.foldl (fun acc product =>
          if fails product then acc
          else record_space_subscription space_id product acc) coll).lookup key
        = coll.lookup key := by
  intro l
  induction l with
  | nil => intro coll _; rfl
  | cons hd tl ih =>
    intro coll h
    rw [List.foldl_cons]
    by_cases hf : fails hd
    · rw [if_pos hf]
      exact ih coll (fun q hq => h q (List.mem_cons_of_mem hd hq))
    · rw [if_neg hf]
      rw [ih _ (fun q hq => h q (List.mem_cons_of_mem hd hq))]
      exact record_space_subscription_preserve space_id hd key coll
        (h hd (List.mem_cons_self hd tl))

theorem additions_fold_mem (space_id : String) (fails : String → Bool) :
    ∀ (l : List String) (coll : List (String × List String)) (p : String),
      (l.map sanitizeProduct).Nodup → p ∈ l → fails p = false →
      space_id ∈ ((l.foldl (fun acc product =>
          if fails product then acc
          else record_space_subscription space_id product acc) coll).lookup
        (sanitizeProduct p)).getD [] := by
  intro l
  induction l with
  | nil => intro coll p _ hp _; cases hp
  | cons hd tl ih =>
    intro coll p hnodup hp hf
    simp only [List.map_cons, List.nodup_cons] at hnodup
    rw [List.foldl_cons]
    rcases List.mem_cons.mp hp with rfl | hptl
    · rw [if_neg (by simp [hf])]
      have hpres : ∀ q ∈ tl, sanitizeProduct q ≠ sanitizeProduct p := by
        intro q hq he
        exact hnodup.1 (he ▸ List.mem_map_of_mem _ hq)
      rw [additions_fold_preserve space_id fails (sanitizeProduct p) tl _ hpres]
      exact record_space_subscription_mem space_id p coll
    · by_cases hfh : fails hd
      · rw [if_pos hfh]
        exact ih coll p hnodup.2 hptl hf
      · rw [if_neg hfh]
        exact ih _ p hnodup.2 hptl hf

theorem lookup_removeKey_self {α : Type} (k : String) (l : List (String × α)) :
    (removeKey k l).lookup k = none := by
  have h := lookup_filterKey (fun s => decide (s ≠ k)) l k
  rw [if_neg (by simp)] at h
  exact h

/-- C9 amended: across the dialog-submission flow (per-identifier removals
and additions) and the space-removal flow, a failure of one per-identifier
call does not abort the sibling calls or the overall flow — every sibling
call whose store operation succeeds is applied, the submission's final record
write still replaces the record with the submitted sets, and the space
removal still deletes the record — but no failure is ever logged: the removal
paths have no exception handler at all (each exception dies inside its
never-inspected future), and the addition path's except handler itself raises
TypeError on `print(..., exc_info=True)` before printing anything. -/
theorem claim_C9_amended_failure_isolation (space_id : String)
    (products categories youtube_channels repos : List String)
    (st : ClientState) (prev : SubRecord)
    (fails : String → Bool) (addColl : List (String × List String))
    (rmSt : ClientState) (rmDoc : SubRecord)
    (hprev : st.product_space_subscriptions.lookup (sanitizeSpace space_id)
      = some prev)
    (hnodup : ((unsubscribed_ids prev.products_subscribed products).map
        sanitizeProduct).Nodup)
    (haddnodup : (products.map sanitizeProduct).Nodup)
    (hrm : rmSt.product_space_subscriptions.lookup (sanitizeSpace space_id)
      = some rmDoc)
    (hrmnodup : (rmDoc.products_subscribed.map sanitizeProduct).Nodup) :
    (record_product_subscription space_id products categories youtube_channels
          repos st).1.product_space_subscriptions.lookup (sanitizeSpace space_id)
        = some ⟨products, categories, youtube_channels, repos⟩
    ∧ (record_product_subscription space_id products categories youtube_channels
          repos st).2.2 = []
    ∧ (∀ x l, x ∈ unsubscribed_ids prev.products_subscribed products →
        st.space_product_subscriptions.lookup (sanitizeProduct x) = some l →
        (record_product_subscription space_id products categories youtube_channels
            repos st).1.space_product_subscriptions.lookup (sanitizeProduct x)
          = some (l.filter (fun s => s ≠ space_id)))
    ∧ (submitDialog_record_additions space_id products fails addColl).2 = []
    ∧ (∀ p ∈ products, fails p = false →
        space_id ∈ (((submitDialog_record_additions space_id products fails
            addColl).1.lookup (sanitizeProduct p)).getD []))
    ∧ (handle_removed_from_space space_id rmSt).1.product_space_subscriptions.lookup
        (sanitizeSpace space_id) = none
    ∧ (handle_removed_from_space space_id rmSt).2 = []
    ∧ (∀ x l, x ∈ rmDoc.products_subscribed →
        rmSt.space_product_subscriptions.lookup (sanitizeProduct x) = some l →
        (handle_removed_from_space space_id rmSt).1.space_product_subscriptions.lookup
            (sanitizeProduct x)
          = some (l.filter (fun s => s ≠ space_id))) := by
  have hu1 : (record_product_subscription space_id products categories
      youtube_channels repos st).1.product_space_subscriptions
      = setA (sanitizeSpace space_id)
          ⟨products, categories, youtube_channels, repos⟩
          st.product_space_subscriptions := by
    simp only [record_product_subscription, hprev]
  have hu2 : (record_product_subscription space_id products categories
      youtube_channels repos st).2.2 = [] := by
    simp only [record_product_subscription, hprev]
  have hu3 : (record_product_subscription space_id products categories
      youtube_channels repos st).1.space_product_subscriptions
      = runRemovals unsubscribe_space_product space_id
          st.space_product_subscriptions
          (unsubscribed_ids prev.products_subscribed products) := by
    simp only [record_product_subscription, hprev]
  have hr1 : (handle_removed_from_space space_id rmSt).1.product_space_subscriptions
      = removeKey (sanitizeSpace space_id) rmSt.product_space_subscriptions := by
    simp only [handle_removed_from_space, hrm]
  have hr2 : (handle_removed_from_space space_id rmSt).2 = [] := by
    simp only [handle_removed_from_space, hrm]
  have hr3 : (handle_removed_from_space space_id rmSt).1.space_product_subscriptions
      = runRemovals unsubscribe_space_product space_id
          rmSt.space_product_subscriptions rmDoc.products_subscribed := by
    simp only [handle_removed_from_space, hrm]
  refine ⟨?_, hu2, ?_, rfl, ?_, ?_, hr2, ?_⟩
  · rw [hu1, lookup_setA, if_pos rfl]
  · intro x l hx hdoc
    rw [hu3]
    exact runRemovals_product_removes space_id
      (unsubscribed_ids prev.products_subscribed products)
      st.space_product_subscriptions x l hx hnodup hdoc
  · intro p hp hf
    exact additions_fold_mem space_id fails products addColl p haddnodup hp hf
  · rw [hr1]
    exact lookup_removeKey_self (sanitizeSpace space_id)
      rmSt.product_space_subscriptions
  · intro x l hx hdoc
    rw [hr3]
    exact runRemovals_product_removes space_id rmDoc.products_subscribed
      rmSt.space_product_subscriptions x l hx hrmnodup hdoc

/-- C9 amended, witnessed concretely: a dialog submission where product "A"'s
removal fails (missing document) while "B"'s removal, "Q"'s addition (with
"P"'s addition failing) and the record write all complete with an empty log;
and a space removal where "C"'s removal fails while "D"'s removal and the
record delete complete, also unlogged. -/
theorem claim_C9_amended_failure_isolation_witness :
    (ClientState.product_space_subscriptions
        ⟨[("s1", ⟨["A", "B"], [], [], []⟩)], [("B", ["s1", "s2"])],
         [], [], []⟩).lookup (sanitizeSpace "s1") = some ⟨["A", "B"], [], [], []⟩
    ∧ (record_product_subscription "s1" ["P", "Q"] [] [] []
          ⟨[("s1", ⟨["A", "B"], [], [], []⟩)], [("B", ["s1", "s2"])],
           [], [], []⟩).1.product_space_subscriptions.lookup (sanitizeSpace "s1")
        = some ⟨["P", "Q"], [], [], []⟩
    ∧ (record_product_subscription "s1" ["P", "Q"] [] [] []
        ⟨[("s1", ⟨["A", "B"], [], [], []⟩)], [("B", ["s1", "s2"])],
         [], [], []⟩).2.2 = []
    ∧ (record_product_subscription "s1" ["P", "Q"] [] [] []
        ⟨[("s1", ⟨["A", "B"], [], [], []⟩)], [("B", ["s1", "s2"])],
         [], [], []⟩).1.space_product_subscriptions.lookup (sanitizeProduct "B")
        = some (["s1", "s2"].filter (fun s => s ≠ "s1"))
    ∧ (submitDialog_record_additions "s1" ["P", "Q"] (fun p => p == "P") []).2 = []
    ∧ "s1" ∈ (((submitDialog_record_additions "s1" ["P", "Q"] (fun p => p == "P")
          []).1.lookup (sanitizeProduct "Q")).getD [])
    ∧ (handle_removed_from_space "s1"
        ⟨[("s1", ⟨["C", "D"], [], [], []⟩)], [("D", ["s1", "s3"])],
         [], [], []⟩).1.product_space_subscriptions.lookup (sanitizeSpace "s1")
        = none
    ∧ (handle_removed_from_space "s1"
        ⟨[("s1", ⟨["C", "D"], [], [], []⟩)], [("D", ["s1", "s3"])],
         [], [], []⟩).2 = []
    ∧ (handle_removed_from_space "s1"
        ⟨[("s1", ⟨["C", "D"], [], [], []⟩)], [("D", ["s1", "s3"])],
         [], [], []⟩).1.space_product_subscriptions.lookup (sanitizeProduct "D")
        = some (["s1", "s3"].filter (fun s => s ≠ "s1")) := by
  have h := claim_C9_amended_failure_isolation "s1" ["P", "Q"] [] [] []
    ⟨[("s1", ⟨["A", "B"], [], [], []⟩)], [("B", ["s1", "s2"])], [], [], []⟩
    ⟨["A", "B"], [], [], []⟩
    (fun p => p == "P") []
    ⟨[("s1", ⟨["C", "D"], [], [], []⟩)], [("D", ["s1", "s3"])], [], [], []⟩
    ⟨["C", "D"], [], [], []⟩
    (by decide) (by decide) (by decide) (by decide) (by decide)
  exact ⟨by decide, h.1, h.2.1,
    h.2.2.1 "B" ["s1", "s2"] (by decide) (by decide),
    h.2.2.2.1,
    h.2.2.2.2.1 "Q" (by decide) (by decide),
    h.2.2.2.2.2.1, h.2.2.2.2.2.2.1,
    h.2.2.2.2.2.2.2 "D" ["s1", "s3"] (by decide) (by decide)⟩

/-! ## Scanning lemmas for the release-note regex model -/

theorem findSub_none_no_occ (pat : List Char) (hne : pat ≠ []) :
    ∀ (s : List Char), findSub pat s = none →
      ∀ i, pat.isPrefixOf (s.drop i) = false := by
  intro s
  induction s with
  | nil =>
    intro _ i
    rw [List.drop_nil]
    cases pat with
    | nil => exact absurd rfl hne
    | cons p ps => rfl
  | cons c cs ih =>
    intro h i
    unfold findSub at h
    by_cases hp : pat.isPrefixOf (c :: cs) = true
    · rw [if_pos hp] at h; cases h
    · rw [Bool.not_eq_true] at hp
      rw [if_neg (by simp [hp])] at h
      rw [Option.map_eq_none'] at h
      cases i with
      | zero => exact hp
      | succ j =>
        rw [List.drop_succ_cons]
        exact ih h j

theorem findSub_cons_none {pat : List Char} {c : Char} {cs : List Char}
    (h : findSub pat (c :: cs) = none) :
    pat.isPrefixOf (c :: cs) = false ∧ findSub pat cs = none := by
  unfold findSub at h
  by_cases hp : pat.isPrefixOf (c :: cs) = true
  · rw [if_pos hp] at h; cases h
  · rw [Bool.not_eq_true] at hp
    rw [if_neg (by simp [hp])] at h
    rw [Option.map_eq_none'] at h
    exact ⟨hp, h⟩

theorem findSub_some (pat : List Char) :
    ∀ (s : List Char) (n : Nat), findSub pat s = some n →
      pat.isPrefixOf (s.drop n) = true ∧
        ∀ i < n, pat.isPrefixOf (s.drop i) = false := by
  intro s
  induction s with
  | nil =>
    intro n h
    unfold findSub at h
    by_cases hp : pat.isPrefixOf ([] : List Char) = true
    · rw [if_pos hp] at h
      cases h
      exact ⟨hp, fun i hi => absurd hi (Nat.not_lt_zero i)⟩
    · rw [Bool.not_eq_true] at hp
      rw [if_neg (by simp [hp])] at h
      cases h
  | cons c cs ih =>
    intro n h
    unfold findSub at h
    by_cases hp : pat.isPrefixOf (c :: cs) = true
    · rw [if_pos hp] at h
      cases h
      exact ⟨hp, fun i hi => absurd hi (Nat.not_lt_zero i)⟩
    · rw [Bool.not_eq_true] at hp
      rw [if_neg (by simp [hp])] at h
      rcases Option.map_eq_some'.mp h with ⟨m, hm, rfl⟩
      obtain ⟨h1, h2⟩ := ih m hm
      refine ⟨by rw [List.drop_succ_cons]; exact h1, ?_⟩
      intro i hi
      cases i with
      | zero => exact hp
      | succ j =>
        rw [List.drop_succ_cons]
        exact h2 j (Nat.lt_of_succ_lt_succ hi)

theorem prefix_append_take (p : List Char) :
    ∀ (x y : List Char), p.isPrefixOf (x ++ y) = true →
      (p.take x.length).isPrefixOf x = true := by
  intro x
  induction x generalizing p with
  | nil => intro y _; cases p <;> rfl
  | cons a xs ih =>
    intro y h
    cases p with
    | nil => rfl
    | cons q ps =>
      simp only [List.cons_append, List.isPrefixOf, Bool.and_eq_true] at h
      simp only [List.length_cons, List.take_succ_cons, List.isPrefixOf,
        Bool.and_eq_true]
      exact ⟨h.1, ih ps y h.2⟩

theorem isPrefixOf_trans {p q x : List Char} (h1 : p.isPrefixOf q = true)
    (h2 : q.isPrefixOf x = true) : p.isPrefixOf x = true := by
  rw [List.isPrefixOf_iff_prefix] at *
  exact h1.trans h2

theorem isPrefixOf_append_self (p r : List Char) : p.isPrefixOf (p ++ r) = true := by
  rw [List.isPrefixOf_iff_prefix]
  exact List.prefix_append p r

/-- No occurrence of `p` starting strictly inside `x` (or spanning into `b`),
granted the finite span check on `x` and no occurrence inside `b`. -/
theorem spanCheck (p x b : List Char)
    (hb : ∀ i, p.isPrefixOf (b.drop i) = false)
    (hx : ∀ j, 1 ≤ j → j < x.length →
      (p.take (x.length - j)).isPrefixOf (x.drop j) = false) :
    ∀ j, 1 ≤ j → p.isPrefixOf ((x ++ b).drop j) = false := by
  intro j hj
  by_cases hlt : j < x.length
  · rw [List.drop_append_of_le_length (Nat.le_of_lt hlt)]
    rcases hres : p.isPrefixOf (x.drop j ++ b) with _ | _
    · rfl
    · have := prefix_append_take p (x.drop j) b hres
      rw [List.length_drop] at this
      rw [hx j hj hlt] at this
      cases this
  · have hge : x.length ≤ j := Nat.le_of_not_lt hlt
    obtain ⟨m, rfl⟩ : ∃ m, j = x.length + m :=
      ⟨j - x.length, by omega⟩
    rw [List.drop_append]
    exact hb m

/-! ## matchLibAt / hasLibMatch / subLib lemmas -/

theorem matchLibAt_nil : matchLibAt [] = none := rfl

theorem matchLibAt_none_of_header_miss {s : List Char}
    (h : librariesHeader.isPrefixOf s = false) : matchLibAt s = none := by
  unfold matchLibAt
  rw [if_neg (by simp [h])]

theorem matchLibAt_none_of_no_h3 {s : List Char}
    (h : findSub h3Open (s.drop 18) = none) : matchLibAt s = none := by
  unfold matchLibAt
  by_cases hp : librariesHeader.isPrefixOf s = true
  · rw [if_pos hp, h]; rfl
  · rw [Bool.not_eq_true] at hp
    rw [if_neg (by simp [hp])]

theorem librariesHeader_length : librariesHeader.length = 18 := rfl

theorem matchLibAt_boundary (c d : List Char)
    (h : findSub h3Open (c ++ (h3Open ++ d)) = some c.length) :
    matchLibAt (librariesHeader ++ (c ++ (h3Open ++ d))) = some d := by
  unfold matchLibAt
  rw [if_pos (isPrefixOf_append_self _ _)]
  have hdrop : (librariesHeader ++ (c ++ (h3Open ++ d))).drop 18
      = c ++ (h3Open ++ d) := by
    rw [← librariesHeader_length, List.drop_left]
  rw [hdrop, h, Option.map_some']
  congr 1
  have : c.length + 4 = c.length + 4 := rfl
  rw [@List.drop_append Char c (h3Open ++ d) 4]
  show (h3Open ++ d).drop h3Open.length = d
  rw [List.drop_left]

theorem hasLibMatch_eq_false {s : List Char}
    (h : ∀ i, matchLibAt (s.drop i) = none) : hasLibMatch s = false := by
  induction s with
  | nil => rfl
  | cons c cs ih =>
    unfold hasLibMatch
    have h0 := h 0
    rw [List.drop_zero] at h0
    rw [h0]
    simp only [Option.isSome_none, Bool.false_or]
    exact ih (fun i => by
      have := h (i + 1)
      rwa [List.drop_succ_cons] at this)

theorem hasLibMatch_of_tail (x y : List Char)
    (h : (matchLibAt y).isSome = true) : hasLibMatch (x ++ y) = true := by
  induction x with
  | nil =>
    cases y with
    | nil => rw [matchLibAt_nil] at h; cases h
    | cons c cs =>
      unfold hasLibMatch
      simp only [List.nil_append]
      rw [h]
      rfl
  | cons a xs ih =>
    rw [List.cons_append]
    show ((matchLibAt (a :: (xs ++ y))).isSome || hasLibMatch (xs ++ y)) = true
    rw [ih]
    simp

theorem subLib1_nil : subLib1 [] = [] := by
  simp [subLib1]

theorem subLib1_cons_none {c : Char} {cs : List Char}
    (h : matchLibAt (c :: cs) = none) : subLib1 (c :: cs) = c :: subLib1 cs := by
  rw [subLib1]
  split
  · next rest heq => rw [h] at heq; cases heq
  · rfl

theorem subLib1_cons_some {c : Char} {cs rest : List Char}
    (h : matchLibAt (c :: cs) = some rest) :
    subLib1 (c :: cs) = librariesUpdatedMid ++ subLib1 rest := by
  rw [subLib1]
  split
  · next r heq =>
    rw [h] at heq
    cases heq
    rfl
  · next heq => rw [h] at heq; cases heq

theorem subLib1_skip (a : List Char) :
    ∀ (rest : List Char),
      (∀ i, i < a.length → matchLibAt ((a ++ rest).drop i) = none) →
      subLib1 (a ++ rest) = a ++ subLib1 rest := by
  induction a with
  | nil => intro rest _; rw [List.nil_append, List.nil_append]
  | cons c as ih =>
    intro rest h
    rw [List.cons_append]
    have h0 := h 0 (Nat.zero_lt_succ _)
    rw [List.drop_zero, List.cons_append] at h0
    rw [subLib1_cons_none h0]
    rw [ih rest (fun i hi => by
      have := h (i + 1) (Nat.succ_lt_succ hi)
      rw [List.cons_append] at this
      rwa [List.drop_succ_cons] at this)]
    rfl

theorem subLib1_id (s : List Char) (h : findSub librariesHeader s = none) :
    subLib1 s = s := by
  induction s with
  | nil => exact subLib1_nil
  | cons c cs ih =>
    obtain ⟨h1, h2⟩ := findSub_cons_none h
    rw [subLib1_cons_none (matchLibAt_none_of_header_miss h1), ih h2]

theorem subLib2_skip (a : List Char) :
    ∀ (rest : List Char),
      (∀ i, i < a.length →
        librariesHeader.isPrefixOf ((a ++ rest).drop i) = false) →
      subLib2 (a ++ rest) = a ++ subLib2 rest := by
  induction a with
  | nil => intro rest _; rw [List.nil_append, List.nil_append]
  | cons c as ih =>
    intro rest h
    rw [List.cons_append]
    have h0 := h 0 (Nat.zero_lt_succ _)
    rw [List.drop_zero, List.cons_append] at h0
    conv_lhs => unfold subLib2
    rw [if_neg (by simp [h0])]
    rw [ih rest (fun i hi => by
      have := h (i + 1) (Nat.succ_lt_succ hi)
      rw [List.cons_append] at this
      rwa [List.drop_succ_cons] at this)]
    rfl

theorem subLib2_match (b : List Char) :
    subLib2 (librariesHeader ++ b) = librariesUpdatedEnd := by
  have hcons : librariesHeader ++ b = '<' :: ("h3>Libraries</h3>".data ++ b) := rfl
  rw [hcons]
  unfold subLib2
  rw [if_pos (by rw [← hcons]; exact isPrefixOf_append_self _ _)]

/-! ## Claim C10: the Libraries section rewrite -/

theorem remove_libraries_no_header (s : List Char)
    (h : findSub librariesHeader s = none) : remove_libraries s = s := by
  have hno : ∀ i, matchLibAt (s.drop i) = none := fun i =>
    matchLibAt_none_of_header_miss
      (findSub_none_no_occ librariesHeader (by decide) s h i)
  unfold remove_libraries
  rw [hasLibMatch_eq_false hno, if_neg Bool.false_ne_true, h]
  rw [if_neg (by simp)]

theorem remove_libraries_last_section (a b : List Char)
    (hfirst : findSub librariesHeader (a ++ (librariesHeader ++ b)) = some a.length)
    (hnoh3 : findSub h3Open b = none) :
    remove_libraries (a ++ (librariesHeader ++ b)) = a ++ librariesUpdatedEnd := by
  obtain ⟨hpref, hbefore⟩ := findSub_some librariesHeader _ _ hfirst
  have hafter : ∀ j, 1 ≤ j →
      h3Open.isPrefixOf ((librariesHeader ++ b).drop j) = false :=
    spanCheck h3Open librariesHeader b
      (findSub_none_no_occ h3Open (by decide) b hnoh3)
      (by decide)
  have hnohdr_after : ∀ j, 1 ≤ j →
      librariesHeader.isPrefixOf ((librariesHeader ++ b).drop j) = false := by
    intro j hj
    rcases hres : librariesHeader.isPrefixOf ((librariesHeader ++ b).drop j)
      with _ | _
    · rfl
    · have hh : h3Open.isPrefixOf ((librariesHeader ++ b).drop j) = true :=
        isPrefixOf_trans (by decide) hres
      rw [hafter j hj] at hh
      cases hh
  have hdropb : (librariesHeader ++ b).drop 18 = b := by
    rw [← librariesHeader_length, List.drop_left]
  have hmatch_none : ∀ i,
      matchLibAt ((a ++ (librariesHeader ++ b)).drop i) = none := by
    intro i
    rcases Nat.lt_trichotomy i a.length with hi | rfl | hi
    · have hb := hbefore i hi
      exact matchLibAt_none_of_header_miss hb
    · rw [List.drop_left]
      apply matchLibAt_none_of_no_h3
      rw [hdropb]
      exact hnoh3
    · obtain ⟨m, rfl⟩ : ∃ m, i = a.length + m := ⟨i - a.length, by omega⟩
      rw [List.drop_append]
      have hm1 : 1 ≤ m := by omega
      exact matchLibAt_none_of_header_miss (hnohdr_after m hm1)
  unfold remove_libraries
  rw [hasLibMatch_eq_false hmatch_none, if_neg Bool.false_ne_true, hfirst]
  rw [if_pos (by simp)]
  rw [subLib2_skip a (librariesHeader ++ b) (fun i hi => hbefore i hi)]
  rw [subLib2_match]

theorem remove_libraries_mid_section (a c d : List Char)
    (hfirst : findSub librariesHeader
      (a ++ (librariesHeader ++ (c ++ (h3Open ++ d)))) = some a.length)
    (hbound : findSub h3Open (c ++ (h3Open ++ d)) = some c.length)
    (hnod : findSub librariesHeader d = none) :
    remove_libraries (a ++ (librariesHeader ++ (c ++ (h3Open ++ d))))
      = a ++ (librariesUpdatedMid ++ d) := by
  obtain ⟨hpref, hbefore⟩ := findSub_some librariesHeader _ _ hfirst
  have hm : matchLibAt (librariesHeader ++ (c ++ (h3Open ++ d))) = some d :=
    matchLibAt_boundary c d hbound
  have htrue :
      hasLibMatch (a ++ (librariesHeader ++ (c ++ (h3Open ++ d)))) = true :=
    hasLibMatch_of_tail a _ (by rw [hm]; rfl)
  unfold remove_libraries
  rw [htrue, if_pos rfl]
  rw [subLib1_skip a _ (fun i hi =>
    matchLibAt_none_of_header_miss (hbefore i hi))]
  have hcons : librariesHeader ++ (c ++ (h3Open ++ d))
      = '<' :: ("h3>Libraries</h3>".data ++ (c ++ (h3Open ++ d))) := rfl
  rw [hcons] at hm
  rw [hcons, subLib1_cons_some hm, subLib1_id d hnod]

/-- C10: the html kept by `get_todays_release_note` — the body later hashed,
stored and notified — rewrites the Libraries section rather than passing the
feed content through verbatim: html without a `<h3>Libraries</h3>` header is
unchanged; with such a header (occurring as the single Libraries section),
everything from the header up to the next `<h3>` (or the end, when no `<h3>`
follows) is replaced by the single header `<h3>Libraries Updated</h3>` (plus
a newline re-attaching the following section's `<h3>` when one exists). -/
theorem claim_C10_libraries_rewrite :
    (∀ s, findSub librariesHeader s = none →
      get_todays_release_note_html s = s)
    ∧ (∀ a b,
        findSub librariesHeader (a ++ (librariesHeader ++ b)) = some a.length →
        findSub h3Open b = none →
        get_todays_release_note_html (a ++ (librariesHeader ++ b))
          = a ++ librariesUpdatedEnd)
    ∧ (∀ a c d,
        findSub librariesHeader
          (a ++ (librariesHeader ++ (c ++ (h3Open ++ d)))) = some a.length →
        findSub h3Open (c ++ (h3Open ++ d)) = some c.length →
        findSub librariesHeader d = none →
        get_todays_release_note_html (a ++ (librariesHeader ++ (c ++ (h3Open ++ d))))
          = a ++ (librariesUpdatedMid ++ d)) :=
  ⟨remove_libraries_no_header,
   remove_libraries_last_section,
   remove_libraries_mid_section⟩

/-- C10 witnessed on the repository's own test inputs: a body without a
Libraries header is unchanged; a trailing Libraries section is replaced by
the bare header; a leading Libraries section followed by a Feature section is
replaced keeping the Feature section. -/
theorem claim_C10_libraries_rewrite_witness :
    findSub librariesHeader "<h3>Other Section</h3><p>Some other info</p>".data = none
    ∧ get_todays_release_note_html "<h3>Other Section</h3><p>Some other info</p>".data
        = "<h3>Other Section</h3><p>Some other info</p>".data
    ∧ get_todays_release_note_html
        ("<h3>Feature</h3><p>Feature info</p>\n".data
          ++ (librariesHeader ++ "<p>Some library info</p>".data))
        = "<h3>Feature</h3><p>Feature info</p>\n".data ++ librariesUpdatedEnd
    ∧ get_todays_release_note_html
        (([] : List Char)
          ++ (librariesHeader ++ ("<p>Some library info</p>\n".data
            ++ (h3Open ++ "Feature</h3><p>Feature info</p>".data))))
        = ([] : List Char) ++ (librariesUpdatedMid ++ "Feature</h3><p>Feature info</p>".data) := by
  refine ⟨by decide, ?_, ?_, ?_⟩
  · exact claim_C10_libraries_rewrite.1 _ (by decide)
  · exact claim_C10_libraries_rewrite.2.1
      "<h3>Feature</h3><p>Feature info</p>\n".data
      "<p>Some library info</p>".data (by decide) (by decide)
  · exact claim_C10_libraries_rewrite.2.2 []
      "<p>Some library info</p>\n".data
      "Feature</h3><p>Feature info</p>".data (by decide) (by decide) (by decide)

/-! ## Claim C1: retraction suppression -/

theorem lookup_append_single_ne {α : Type} (l : List (String × α)) (q : String)
    (v : α) (product : String) (h : q ≠ product) :
    (l ++ [(q, v)]).lookup product = l.lookup product := by
  rw [List.lookup_append, lookup_cons_eq_if, if_neg h]
  simp

theorem foldl_subs_empty (stexts headers lsubs : List (List Char)) :
    ∀ (l : List (Nat × List Char)) (acc : List Char),
      (∀ p ∈ l, p.2 ∈ stexts) →
      l.foldl (fun acc p =>
        if p.2 ∈ stexts then acc
        else acc ++ h3Open ++ headers.getD p.1 [] ++ h3Close ++ lsubs.getD p.1 [])
        acc = acc := by
  intro l
  induction l with
  | nil => intro acc _; rfl
  | cons hd tl ih =>
    intro acc h
    rw [List.foldl_cons, if_pos (h hd (List.mem_cons_self hd tl))]
    exact ih acc (fun p hp => h p (List.mem_cons_of_mem hd hp))

theorem subsections_empty_of_contained (getText : List Char → List Char)
    (latest stored : ReleaseNote)
    (h : ∀ t ∈ ((pySplitH3 latest.html).drop 1).map getText,
        t ∈ ((pySplitH3 stored.html).drop 1).map getText) :
    (get_new_release_note_subsections getText latest stored).html = [] := by
  simp only [get_new_release_note_subsections]
  apply foldl_subs_empty
  intro p hp
  obtain ⟨hlt, hval⟩ := List.mem_enum hp
  apply h
  rw [hval]
  exact List.getElem_mem hlt

theorem process_release_note_preserve (digest : List Char → List Nat)
    (getText : List Char → List Char)
    (st news : List (String × ReleaseNote)) (pr : String × ReleaseNote)
    (key product : String)
    (hk : sanitizeProduct pr.1 ≠ key) (hp : pr.1 ≠ product) :
    ((process_release_note digest getText (st, news) pr).1.lookup key
      = st.lookup key)
    ∧ ((process_release_note digest getText (st, news) pr).2.lookup product
      = news.lookup product) := by
  rcases h0 : st.lookup (sanitizeProduct pr.1) with _ | stored
  · simp only [process_release_note, h0, save_release_note_to_firestore]
    exact ⟨by rw [lookup_setA, if_neg hk], lookup_append_single_ne news pr.1 pr.2 product hp⟩
  · by_cases h1 : stored.html.isEmpty
    · simp only [process_release_note, h0, h1, if_true, save_release_note_to_firestore]
      exact ⟨by rw [lookup_setA, if_neg hk],
        lookup_append_single_ne news pr.1 pr.2 product hp⟩
    · by_cases h2 : isNewRelease digest getText pr.2 stored
      · by_cases h3 : (get_new_release_note_subsections getText pr.2 stored).html.isEmpty
        · simp only [process_release_note, h0, h1, h2, h3, if_true, if_false,
            Bool.false_eq_true, save_release_note_to_firestore]
          exact ⟨by rw [lookup_setA, if_neg hk], by trivial⟩
        · simp only [process_release_note, h0, h1, h2, h3, if_true, if_false,
            Bool.false_eq_true, save_release_note_to_firestore]
          exact ⟨by rw [lookup_setA, if_neg hk],
            lookup_append_single_ne news pr.1 _ product hp⟩
      · simp only [process_release_note, h0, h1, h2, Bool.false_eq_true, if_false]
        exact ⟨by trivial, by trivial⟩

theorem process_release_note_hit (digest : List Char → List Nat)
    (getText : List Char → List Char)
    (st news : List (String × ReleaseNote)) (product : String)
    (latest stored : ReleaseNote)
    (hst : st.lookup (sanitizeProduct product) = some stored)
    (hhtml : stored.html.isEmpty = false)
    (hnew : isNewRelease digest getText latest stored = true)
    (hsubs : (get_new_release_note_subsections getText latest stored).html = []) :
    process_release_note digest getText (st, news) (product, latest)
      = (setA (sanitizeProduct product) latest st, news) := by
  simp [process_release_note, hst, hhtml, hnew, hsubs, save_release_note_to_firestore]

theorem fold_release_preserve (digest : List Char → List Nat)
    (getText : List Char → List Char) (key product : String) :
    ∀ (l : List (String × ReleaseNote)) (st news : List (String × ReleaseNote)),
      (∀ pr ∈ l, sanitizeProduct pr.1 ≠ key ∧ pr.1 ≠ product) →
      ((l.foldl (process_release_note digest getText) (st, news)).1.lookup key
        = st.lookup key)
      ∧ ((l.foldl (process_release_note digest getText) (st, news)).2.lookup product
        = news.lookup product) := by
  intro l
  induction l with
  | nil => intro st news _; exact ⟨rfl, rfl⟩
  | cons pr tl ih =>
    intro st news h
    have hpr := h pr (List.mem_cons_self pr tl)
    have hstep := process_release_note_preserve digest getText st news pr key
      product hpr.1 hpr.2
    have ihapp := ih (process_release_note digest getText (st, news) pr).1
      (process_release_note digest getText (st, news) pr).2
      (fun q hq => h q (List.mem_cons_of_mem pr hq))
    rw [Prod.mk.eta] at ihapp
    rw [List.foldl_cons]
    exact ⟨ihapp.1.trans hstep.1, ihapp.2.trans hstep.2⟩

theorem fold_release_suppress (digest : List Char → List Nat)
    (getText : List Char → List Char) (product : String)
    (latest stored : ReleaseNote) :
    ∀ (l : List (String × ReleaseNote)) (st news : List (String × ReleaseNote)),
      (product, latest) ∈ l →
      (l.map (fun pr => sanitizeProduct pr.1)).Nodup →
      st.lookup (sanitizeProduct product) = some stored →
      news.lookup product = none →
      stored.html.isEmpty = false →
      isNewRelease digest getText latest stored = true →
      (get_new_release_note_subsections getText latest stored).html = [] →
      ((l.foldl (process_release_note digest getText) (st, news)).1.lookup
          (sanitizeProduct product) = some latest)
      ∧ ((l.foldl (process_release_note digest getText) (st, news)).2.lookup
          product = none) := by
  intro l
  induction l with
  | nil => intro st news hmem; cases hmem
  | cons pr tl ih =>
    intro st news hmem hnodup hst hnews hhtml hnew hsubs
    simp only [List.map_cons, List.nodup_cons] at hnodup
    obtain ⟨hnd1, hnd2⟩ := hnodup
    rcases List.mem_cons.mp hmem with heq | hmemtl
    · cases heq
      rw [List.foldl_cons,
        process_release_note_hit digest getText st news product latest stored
          hst hhtml hnew hsubs]
      have hpres : ∀ q ∈ tl,
          sanitizeProduct q.1 ≠ sanitizeProduct product ∧ q.1 ≠ product := by
        intro q hq
        constructor
        · intro he
          exact hnd1 (he ▸ List.mem_map_of_mem _ hq)
        · intro he
          apply hnd1
          have : sanitizeProduct q.1 ∈ tl.map (fun x => sanitizeProduct x.1) :=
            List.mem_map_of_mem _ hq
          rwa [he] at this
      have hdone := fold_release_preserve digest getText (sanitizeProduct product)
        product tl (setA (sanitizeProduct product) latest st) news hpres
      refine ⟨?_, ?_⟩
      · rw [hdone.1, lookup_setA, if_pos rfl]
      · rw [hdone.2, hnews]
    · have hkey_mem : sanitizeProduct product
          ∈ tl.map (fun x => sanitizeProduct x.1) := by
        have := List.mem_map_of_mem (fun x : String × ReleaseNote =>
          sanitizeProduct x.1) hmemtl
        exact this
      have hk : sanitizeProduct pr.1 ≠ sanitizeProduct product := by
        intro he
        apply hnd1
        rwa [he]
      have hp : pr.1 ≠ product := fun he => hk (by rw [he])
      rw [List.foldl_cons]
      have hstep := process_release_note_preserve digest getText st news pr
        (sanitizeProduct product) product hk hp
      have ihapp := ih (process_release_note digest getText (st, news) pr).1
        (process_release_note digest getText (st, news) pr).2
        hmemtl hnd2 (hstep.1.trans hst) (hstep.2.trans hnews) hhtml hnew hsubs
      rwa [Prod.mk.eta] at ihapp

/-- C1: for a product with a stored non-empty release note, when the fetched
note's plain-text digest differs but every fetched subsection's plain text
equals some stored subsection's plain text, the run overwrites the stored
note with the fetched one (with its full original html) yet emits no
notification for that product. -/
theorem claim_C1_retraction_suppression (digest : List Char → List Nat)
    (getText : List Char → List Char)
    (latestMap store : List (String × ReleaseNote))
    (product : String) (latest stored : ReleaseNote)
    (hmem : (product, latest) ∈ latestMap)
    (hkeys : (latestMap.map (fun pr => sanitizeProduct pr.1)).Nodup)
    (hstored : store.lookup (sanitizeProduct product) = some stored)
    (hhtml : stored.html.isEmpty = false)
    (hdig : digest (getText latest.html) ≠ digest (getText stored.html))
    (hsubs : ∀ t ∈ ((pySplitH3 latest.html).drop 1).map getText,
        t ∈ ((pySplitH3 stored.html).drop 1).map getText) :
    ((get_new_release_notes digest getText latestMap store).1.lookup
        (sanitizeProduct product) = some latest)
    ∧ ((get_new_release_notes digest getText latestMap store).2.lookup product
        = none) := by
  have hnew : isNewRelease digest getText latest stored = true := by
    simp [isNewRelease, hdig]
  have hempty := subsections_empty_of_contained getText latest stored hsubs
  unfold get_new_release_notes
  exact fold_release_suppress digest getText product latest stored latestMap
    store [] hmem hkeys hstored rfl hhtml hnew hempty

/-- C1 witnessed: stored body `x<h3>A</h3>hello`, fetched body
`<h3>A</h3>hello` — the plain-text digest (here, text length) changes, the
single fetched subsection's text `hello` already occurs among the stored
subsections, so the store is overwritten with the fetched note and the
notification map stays empty. -/
theorem claim_C1_retraction_suppression_witness :
    ([("P", (⟨"P", "d1", "l1", "x<h3>A</h3>hello".data, "u"⟩ : ReleaseNote))].lookup
        (sanitizeProduct "P")
      = some (⟨"P", "d1", "l1", "x<h3>A</h3>hello".data, "u"⟩ : ReleaseNote))
    ∧ ((fun l : List Char => [l.length])
        (id ("<h3>A</h3>hello".data))
      ≠ (fun l : List Char => [l.length]) (id ("x<h3>A</h3>hello".data)))
    ∧ ((get_new_release_notes (fun l => [l.length]) id
        [("P", ⟨"P", "d2", "l2", "<h3>A</h3>hello".data, "u"⟩)]
        [("P", ⟨"P", "d1", "l1", "x<h3>A</h3>hello".data, "u"⟩)]).1.lookup
          (sanitizeProduct "P")
        = some (⟨"P", "d2", "l2", "<h3>A</h3>hello".data, "u"⟩ : ReleaseNote))
    ∧ ((get_new_release_notes (fun l => [l.length]) id
        [("P", ⟨"P", "d2", "l2", "<h3>A</h3>hello".data, "u"⟩)]
        [("P", ⟨"P", "d1", "l1", "x<h3>A</h3>hello".data, "u"⟩)]).2.lookup "P"
        = none) := by
  have e1 : pySplitH3 "<h3>A</h3>hello".data = [[], "hello".data] := by
    simp [pySplitH3, pySplitAux, matchSplitAt, ngCloseIdx, h3Open, h3Close,
      List.isPrefixOf]
  have e2 : pySplitH3 "x<h3>A</h3>hello".data = ["x".data, "hello".data] := by
    simp [pySplitH3, pySplitAux, matchSplitAt, ngCloseIdx, h3Open, h3Close,
      List.isPrefixOf]
  have happ := claim_C1_retraction_suppression (fun l => [l.length]) id
    [("P", ⟨"P", "d2", "l2", "<h3>A</h3>hello".data, "u"⟩)]
    [("P", ⟨"P", "d1", "l1", "x<h3>A</h3>hello".data, "u"⟩)]
    "P" ⟨"P", "d2", "l2", "<h3>A</h3>hello".data, "u"⟩
    ⟨"P", "d1", "l1", "x<h3>A</h3>hello".data, "u"⟩
    (by decide) (by decide) (by decide) (by decide) (by decide)
    (by
      intro t ht
      dsimp only at ht ⊢
      rw [e1] at ht
      rw [e2]
      simpa using ht)
  exact ⟨by decide, by decide, happ.1, happ.2⟩

end CloudReleaseBot
